import Mathlib

/-!
Verification of the Orgaplex-Analyzer core against its specification.

Shallow embedding of the Python modules:
  * `src/utils/file_filters.py`  — shadow-file filtering
  * `src/utils/sorting.py`       — natural sort key and cell-id sorting
  * `src/core/data_loader.py`    — structure detection, entity discovery,
                                   distance-file loading and lookup
  * `src/core/one_way_interaction.py` — relationship aggregation
  * `src/core/vol_spher_metrics.py`   — volume/sphericity aggregation

Python dictionaries are modelled as association lists with replace-on-insert
(`dictInsert`), preserving insertion order exactly as CPython dicts do.
Numeric measurement values are modelled as rationals; an `inf` constructor
models IEEE infinities (the loaders reject them before any arithmetic, and
`NaN` cells are dropped by `dropna`, so rational arithmetic is exact on every
series the analyzers actually touch).  File-system interaction is modelled by
passing directory listings / content maps as explicit arguments.
-/

namespace Orgaplex

/-! ## Definitions: the shallow embedding of the source modules -/

/-- Lookup in an insertion-ordered association list (Python `dict.get`). -/
def dictLookup {K V : Type} [DecidableEq K] (l : List (K × V)) (k : K) : Option V :=
  (l.find? (fun p => decide (p.1 = k))).map Prod.snd

/-- `d[k] = v` on a Python dict: replace the value at an existing key in
place, otherwise append the new binding at the end. -/
def dictInsert {K V : Type} [DecidableEq K] : List (K × V) → K → V → List (K × V)
  | [], k, v => [(k, v)]
  | p :: rest, k, v => if p.1 = k then (k, v) :: rest else p :: dictInsert rest k v

/-- Build a dict from a list of bindings (dict comprehension: later bindings
for the same key overwrite earlier ones). -/
def buildDict {K V : Type} [DecidableEq K] (l : List (K × V)) : List (K × V) :=
  l.foldl (fun acc p => dictInsert acc p.1 p.2) []

/-- `is_macos_metadata_file`: a path whose final name starts with the
two-character shadow marker. -/
def is_macos_metadata_file (name : String) : Bool :=
  "._".data.isPrefixOf name.data

/-- `filter_metadata_files`: drop shadow entries, keep order. -/
def filter_metadata_files (paths : List String) : List String :=
  paths.filter (fun p => ! is_macos_metadata_file p)

/-- A tagged fragment of `natural_sort_key`: `(0, int(s))` for a numeric run,
`(1, s.lower())` for any other run.  `Sum.inl` carries tag 0, `Sum.inr`
tag 1, and the lexicographic order on `ℕ ⊕ₗ List Char` puts every `inl`
before every `inr`, exactly like Python tuple comparison on the tags. -/
abbrev Frag := ℕ ⊕ₗ (List Char)

/-- `re.split(r'(\d+)', text)` with empty fragments removed: the list of
maximal runs of digit / non-digit characters, in order. -/
def splitRuns : List Char → List (List Char)
  | [] => []
  | c :: rest =>
    match splitRuns rest with
    | [] => [[c]]
    | [] :: rs => [c] :: rs
    | (d :: ds) :: rs =>
      if c.isDigit = d.isDigit then (c :: d :: ds) :: rs
      else [c] :: (d :: ds) :: rs

/-- `int(s)` on a run of decimal digits. -/
def digitsToNat (l : List Char) : ℕ :=
  l.foldl (fun n c => n * 10 + (c.toNat - 48)) 0

/-- `convert_to_int_or_lower`: numeric runs become `(0, int)`, all other runs
become `(1, lowercase)`. -/
def toFrag (run : List Char) : Frag :=
  if run ≠ [] ∧ run.all Char.isDigit then toLex (Sum.inl (digitsToNat run))
  else toLex (Sum.inr (run.map Char.toLower))

/-- `natural_sort_key`. -/
def natural_sort_key (s : String) : List Frag :=
  (splitRuns s.data).map toFrag

/-- The comparison actually used when Python sorts by `natural_sort_key`:
lexicographic comparison of the two key lists. -/
def natKeyLe (a b : String) : Prop := natural_sort_key a ≤ natural_sort_key b

instance : DecidableRel natKeyLe := fun a b =>
  inferInstanceAs (Decidable (natural_sort_key a ≤ natural_sort_key b))

instance : IsTrans String natKeyLe := ⟨fun _ _ _ h1 h2 => le_trans h1 h2⟩

instance : IsTotal String natKeyLe := ⟨fun _ _ => le_total _ _⟩

/-- `sort_cell_ids`: Python `sorted(cell_ids, key=natural_sort_key)` is the
stable sort under `natKeyLe`; stable-sort output is unique, so the
structurally recursive insertion sort is an exact model. -/
def sort_cell_ids (cell_ids : List String) : List String :=
  List.insertionSort natKeyLe cell_ids

/-- Python `sorted` on plain strings: code-point lexicographic order. -/
def pyStrLe (a b : String) : Prop := a.data ≤ b.data

instance : DecidableRel pyStrLe := fun a b => inferInstanceAs (Decidable (a.data ≤ b.data))

instance : IsTrans String pyStrLe := ⟨fun _ _ _ h1 h2 => le_trans h1 h2⟩

instance : IsTotal String pyStrLe := ⟨fun _ _ => le_total _ _⟩

/-- Python `sorted(strings)`. -/
def pySorted (l : List String) : List String :=
  List.insertionSort pyStrLe l

/-- Python `sorted(set(strings))`: duplicates removed, then sorted. -/
def sortedDedup (l : List String) : List String :=
  pySorted l.dedup

/-- A numeric cell value: finite rational or infinity. -/
inductive PVal : Type
  | fin (q : ℚ)
  | inf
deriving DecidableEq

/-- `np.isinf` on one value. -/
def PVal.isInf : PVal → Bool
  | .fin _ => false
  | .inf => true

/-- The rational payload of a finite value. -/
def PVal.toQ : PVal → Option ℚ
  | .fin q => some q
  | .inf => none

/-- One parsed measurement column: `None` cells are the `NaN`s that
`dropna` removes. -/
abbrev MCol := List (Option PVal)

/-- Result of a successful load: the validated series and the advisory
warnings emitted while validating it. -/
structure LoadResult : Type where
  values : List ℚ
  warnings : List String
deriving DecidableEq

/-- `DataLoader.load_distance_file` (src/core/data_loader.py).
Checks, in source order: empty file, empty series after `dropna`, infinite
values (fatal), then the large-magnitude advisory warning.  Negative
distances are accepted. -/
def load_distance_file (col : MCol) : Except String LoadResult :=
  if col.length < 1 then .error "File has no data rows"
  else
    let distances := col.filterMap id
    if distances.length = 0 then .error "No valid distance values"
    else if distances.any PVal.isInf then .error "Infinite values found"
    else
      let qs := distances.filterMap PVal.toQ
      let ws := if qs.any (fun q => 100000 < |q|) then
          ["Unusually large distance values"] else []
      .ok ⟨qs, ws⟩

/-- Which metric a file holds (the `metric_name` argument). -/
inductive Metric : Type
  | Volume
  | Sphericity
deriving DecidableEq

/-- `VolSpherMetricsAnalyzer.load_metric_file` (src/core/vol_spher_metrics.py).
Shared checks as for distances; then sphericity values outside `[0, 1]` only
warn, while any negative volume is fatal and volumes above 1000 warn. -/
def load_metric_file (col : MCol) (metric : Metric) : Except String LoadResult :=
  if col.length < 1 then .error "File has no data rows"
  else
    let values := col.filterMap id
    if values.length = 0 then .error "No valid values"
    else if values.any PVal.isInf then .error "Infinite values found"
    else
      let qs := values.filterMap PVal.toQ
      match metric with
      | .Sphericity =>
        let ws := if qs.any (fun q => q < 0) || qs.any (fun q => 1 < q) then
            ["Sphericity values outside expected range"] else []
        .ok ⟨qs, ws⟩
      | .Volume =>
        if qs.any (fun q => q < 0) then .error "Negative volume values found"
        else
          let ws := if qs.any (fun q => 1000 < q) then
              ["Unusually large volume values"] else []
          .ok ⟨qs, ws⟩

/-- One immediate subdirectory of the input root, together with the names of
its own subdirectories (what `subdir.iterdir()` + `is_dir()` yields). -/
structure DirEntry : Type where
  name : String
  subdirNames : List String
deriving DecidableEq

/-- Outcome of `detect_structure`: scan the root itself (flat layout,
`has_ld = True`) or the first matching condition subdirectory (nested
layout, `has_ld = False`). -/
inductive ScanDir : Type
  | flat
  | nested (condName : String)
deriving DecidableEq

/-- `'_Statistics'` suffix test used throughout the loader. -/
def endsWithStatistics (name : String) : Bool :=
  "_Statistics".data.isSuffixOf name.data

/-- `DataLoader.detect_structure`, given the listing of subdirectories of an
existing root.  Note: the source applies no shadow-file filtering here. -/
def detect_structure (all_dirs : List DirEntry) : Except String ScanDir :=
  if all_dirs.any (fun d => endsWithStatistics d.name) then .ok .flat
  else
    match all_dirs.filter (fun d => d.subdirNames.any endsWithStatistics) with
    | [] => .error "No valid Statistics folders found in parent directory or subdirectories"
    | d :: _ => .ok (.nested d.name)

/-- A character of the regex class `[A-Z0-9a-z]`. -/
def isCatChar (c : Char) : Bool := c.isUpper || c.isLower || c.isDigit

/-- The category-token pattern `[A-Z][A-Z0-9a-z]*`. -/
def isCatToken : List Char → Bool
  | [] => false
  | c :: cs => c.isUpper && cs.all isCatChar

/-- Does a remainder match `_[A-Z][A-Z0-9a-z]*_Statistics` exactly (the part
of `cell_id_pattern` after the non-greedy group)?  Because the token class
excludes `'_'`, the token must be everything strictly between the leading
underscore and the final literal `_Statistics`. -/
def matchesTail : List Char → Bool
  | '_' :: rest =>
    let suf := "_Statistics".data
    if rest.length < suf.length + 1 then false
    else decide (rest.drop (rest.length - suf.length) = suf)
      && isCatToken (rest.take (rest.length - suf.length))
  | _ => false

/-- Non-greedy scan of `^(.+?)_[A-Z][A-Z0-9a-z]*_Statistics$`: try the
shortest nonempty group first, exactly as the lazy quantifier does. -/
def cellIdScan : List Char → List Char → Option (List Char)
  | _, [] => none
  | pre, c :: rest =>
    if matchesTail rest then some (pre ++ [c]) else cellIdScan (pre ++ [c]) rest

/-- `cell_id_pattern.match(folder_name).group(1)`. -/
def cellIdOfName (name : String) : Option String :=
  (cellIdScan [] name.data).map String.mk

/-- `organelle_pattern.search(folder_name).group(1)`: the maximal run of
class characters right before the final `_Statistics`, which must be
nonempty, start with an uppercase letter and be preceded by `'_'` (the only
position where `re.search` can match, since the class excludes `'_'`). -/
def organelleOfName (name : String) : Option String :=
  let cs := name.data
  let suf := "_Statistics".data
  if suf.isSuffixOf cs then
    let body := cs.take (cs.length - suf.length)
    let run := (body.reverse.takeWhile isCatChar).reverse
    let before := body.take (body.length - run.length)
    match run with
    | [] => none
    | c :: _ =>
      if c.isUpper && before.getLast? = some '_' then some (String.mk run)
      else none
  else none

/-- Both naming-convention rules of `find_cell_folders` applied to one
folder name. -/
def parseFolder (name : String) : Option (String × String) :=
  match cellIdOfName name with
  | none => none
  | some c =>
    match organelleOfName name with
    | none => none
    | some o => some (c, o)

/-- One entry of `self.cell_folders` (the `full_path` coincides with the
folder name in this model). -/
structure FolderRec : Type where
  folder_name : String
  cell_id : String
  organelle : String
deriving DecidableEq

/-- The parsing loop of `find_cell_folders`: parsed records in listing
order, plus one warning per folder that failed either rule. -/
def parseFolders : List String → List FolderRec × List String
  | [] => ([], [])
  | n :: rest =>
    let pr := parseFolders rest
    match cellIdOfName n with
    | none => (pr.1, ("Could not parse cell ID from " ++ n) :: pr.2)
    | some c =>
      match organelleOfName n with
      | none => (pr.1, ("Could not parse organelle from " ++ n) :: pr.2)
      | some o => (⟨n, c, o⟩ :: pr.1, pr.2)

/-- `dict[c].append(v)` with `dict.setdefault`-style creation, preserving
CPython dict insertion order. -/
def appendToKey {K V : Type} [DecidableEq K] : List (K × List V) → K → V → List (K × List V)
  | [], k, v => [(k, [v])]
  | p :: rest, k, v =>
    if p.1 = k then (p.1, p.2 ++ [v]) :: rest else p :: appendToKey rest k v

/-- The `cell_id -> [organelles]` index built by
`_build_lookup_dictionaries`. -/
def buildC2O (l : List FolderRec) : List (String × List String) :=
  l.foldl (fun acc f => appendToKey acc f.cell_id f.organelle) []

/-- The immutable discovery state after a successful `find_cell_folders`. -/
structure Discovery : Type where
  cell_folders : List FolderRec
  unique_cells : List String
  all_organelles : List String
  folder_lookup : List ((String × String) × FolderRec)
  cells_to_organelles : List (String × List String)
deriving DecidableEq

/-- The `'_Statistics'`-suffixed, shadow-filtered directory listing that
`find_cell_folders` parses. -/
def statDirs (listing : List String) : List String :=
  filter_metadata_files (listing.filter endsWithStatistics)

/-- `DataLoader.find_cell_folders` + `_build_lookup_dictionaries`, given the
listing of subdirectories of the search directory.  Returns the discovery
state and the warnings of the parsing loop. -/
def find_cell_folders (listing : List String) : Except String (Discovery × List String) :=
  let stat_dirs := statDirs listing
  if stat_dirs.isEmpty then .error "No folders ending with _Statistics found"
  else
    let pr := parseFolders stat_dirs
    if pr.1.isEmpty then .error "No valid cell folders could be parsed"
    else
      .ok (⟨pr.1,
            sortedDedup (pr.1.map FolderRec.cell_id),
            sortedDedup (pr.1.map FolderRec.organelle),
            buildDict (pr.1.map (fun f => ((f.cell_id, f.organelle), f))),
            buildC2O pr.1⟩, pr.2)

/-- Does `pat` occur as a contiguous run inside the character list? -/
def containsRun (pat : List Char) : List Char → Bool
  | [] => pat.isEmpty
  | c :: rest => pat.isPrefixOf (c :: rest) || containsRun pat rest

/-- The glob `*Shortest_Distance_to_Surfaces_Surfaces*.csv` on one file
name: ends in `.csv` and contains the marker before the extension. -/
def distanceGlob (name : String) : Bool :=
  ".csv".data.isSuffixOf name.data
    && containsRun "Shortest_Distance_to_Surfaces_Surfaces".data
        (name.data.take (name.data.length - 4))

/-- `target_pattern.search`: leftmost occurrence of `Surfaces=` followed by
an uppercase letter; the capture is the greedy class-character run. -/
def findTargetAux : List Char → Option (List Char)
  | [] => none
  | c :: rest =>
    if "Surfaces=".data.isPrefixOf (c :: rest) then
      match (c :: rest).drop 9 with
      | [] => findTargetAux rest
      | d :: ds =>
        if d.isUpper then some (d :: ds.takeWhile isCatChar)
        else findTargetAux rest
    else findTargetAux rest

/-- `Surfaces=<Target>` extraction from a distance-file name. -/
def targetOfFilename (name : String) : Option String :=
  (findTargetAux name.data).map String.mk

/-- `DataLoader.get_distance_files`.  `validated` is `none` before
`find_cell_folders` has completed; `folderFiles` lists the file names inside
a folder. -/
def get_distance_files (validated : Option Discovery) (folderFiles : String → List String)
    (cell_id source_organelle : String) : Except String (List (String × String)) :=
  match validated with
  | none => .error "Must call find_cell_folders() first"
  | some d =>
    match dictLookup d.folder_lookup (cell_id, source_organelle) with
    | none => .ok []
    | some folder_info =>
      let distance_files :=
        filter_metadata_files ((folderFiles folder_info.folder_name).filter distanceGlob)
      .ok (distance_files.filterMap
        (fun fp => (targetOfFilename fp).map (fun t => (fp, t))))

/-- The stored statistics of one successfully processed relationship file. -/
structure CellStats : Type where
  mean : ℚ
  count : ℕ
deriving DecidableEq

/-- `pd.Series.mean`: `none` models the `NaN` a mean of an empty series
would be (the loader guarantees nonempty series, so the subsequent
`pd.isna(mean)` guard can only fire on an empty series; a mean of finitely
many finite rationals is never infinite, so the `np.isinf(mean)` guard is
vacuous in this value domain). -/
def seriesMean (s : List ℚ) : Option ℚ :=
  if s.length = 0 then none else some (s.sum / s.length)

/-- `(distances <= 0).sum()`: the number of values that are ≤ 0. -/
def countLe0 (s : List ℚ) : ℕ := (s.filter (fun v => v ≤ 0)).length

/-- The inner loop of `OneWayInteractionAnalyzer.analyze_cell` for one cell:
`files` is the ordered list of `(source_organelle, target_organelle,
file column)` triples produced by iterating the cell's folders and their
distance files.  Load failures and invalid means are logged and skipped;
successful loads store `{'mean': …, 'count': (distances <= 0).sum()}` under
the label `source-to-target` in the interactions dict. -/
def analyze_cell_files (files : List (String × String × MCol)) : List (String × CellStats) :=
  files.foldl (fun interactions f =>
    let interaction_name := f.1 ++ "-to-" ++ f.2.1
    match load_distance_file f.2.2 with
    | .error _ => interactions
    | .ok r =>
      match seriesMean r.values with
      | none => interactions
      | some m => dictInsert interactions interaction_name ⟨m, countLe0 r.values⟩) []

/-- One cell of the summary tables. `mean = none` models the `np.nan`
sentinel; `marker` is the completeness entry. -/
structure SummaryCell : Type where
  mean : Option ℚ
  count : ℕ
  marker : String
deriving DecidableEq

/-- The per-cell results dict accumulated by `analyze_all_cells`:
`cell_id -> (interaction label -> stats)`. -/
abbrev Results := List (String × List (String × CellStats))

/-- The three parallel matrices built by `build_summary_tables`, with the
imperative `missing_count` counter. -/
structure SummaryTables : Type where
  interactions : List String
  cells : List String
  rows : List (String × List (String × SummaryCell))
  missing_count : ℕ
deriving DecidableEq

/-- `interaction in self.results[cell_id]` — was this relationship observed
for this cell? -/
def observedStats (results : Results) (cell_id interaction : String) : Option CellStats :=
  dictLookup ((dictLookup results cell_id).getD []) interaction

/-- One `(interaction, cell)` entry of the three tables: computed values
when present, the explicit sentinels (`np.nan`, `0`, `'Missing'`) when
absent. -/
def summaryCellFor (results : Results) (interaction cell_id : String) : SummaryCell :=
  match observedStats results cell_id interaction with
  | some st => ⟨some st.mean, st.count, "Present"⟩
  | none => ⟨none, 0, "Missing"⟩

/-- `OneWayInteractionAnalyzer.build_summary_tables`. -/
def build_summary_tables (results : Results) : Except String SummaryTables :=
  if results.isEmpty then .error "No results available"
  else
    let all_interactions :=
      sortedDedup (results.foldr (fun p acc => p.2.map Prod.fst ++ acc) [])
    let all_cells := sort_cell_ids (results.map Prod.fst)
    let rows := all_interactions.map
      (fun i => (i, all_cells.map (fun c => (c, summaryCellFor results i c))))
    let missing_count := (rows.map
      (fun r => (r.2.filter (fun p => decide (p.2.marker = "Missing"))).length)).sum
    .ok ⟨all_interactions, all_cells, rows, missing_count⟩

/-- The percentage the source logs:
`(missing_count / total_possible) * 100`. -/
def missing_percentage (t : SummaryTables) : ℚ :=
  ((t.missing_count : ℚ) / ((t.interactions.length * t.cells.length : ℕ) : ℚ)) * 100

/-- Access one cell of the built tables by row and column label. -/
def tableCell (t : SummaryTables) (interaction cell_id : String) : Option SummaryCell :=
  (dictLookup t.rows interaction).bind (fun row => dictLookup row cell_id)

/-- One matrix value: a number or the `np.nan` sentinel. -/
inductive MVal : Type
  | q (x : ℚ)
  | nan
deriving DecidableEq

/-- The `cell_metrics` dict of one cell: metric name → value. -/
abbrev MetricsDict := List (String × MVal)

/-- The fixed `row_order` of `analyze_organelle`. -/
def ROW_ORDER : List String :=
  ["Mean_Sphericity", "Count_Sphericity", "Mean_Volume", "Count_Volume",
   "Total_Volume", "Max_Volume"]

/-- `pd.Series.max` on a (nonempty) series. -/
def listMax : List ℚ → ℚ
  | [] => 0
  | x :: xs => xs.foldl max x

/-- `str.replace`: replace every non-overlapping occurrence of `pat`, left
to right.  The fuel argument (initially the string length) only makes the
recursion structural; it never runs out. -/
def replaceAllAux (pat rep : List Char) : ℕ → List Char → List Char
  | _, [] => []
  | 0, l => l
  | fuel + 1, c :: rest =>
    if !pat.isEmpty && pat.isPrefixOf (c :: rest) then
      rep ++ replaceAllAux pat rep fuel ((c :: rest).drop pat.length)
    else c :: replaceAllAux pat rep fuel rest

/-- Python `s.replace(pat, rep)`. -/
def pyReplace (s pat rep : String) : String :=
  String.mk (replaceAllAux pat.data rep.data s.data.length s.data)

/-- `folder_name.replace(f"_\x7borganelle\x7d_Statistics", "")`. -/
def cellIdOf (organelle folder_name : String) : String :=
  pyReplace folder_name ("_" ++ organelle ++ "_Statistics") ""

/-- The volume file name `f"\x7bcell_id\x7d_\x7borganelle\x7d_Volume.csv"`. -/
def volName (cell_id organelle : String) : String :=
  cell_id ++ "_" ++ organelle ++ "_Volume.csv"

/-- The sphericity file name. -/
def spherName (cell_id organelle : String) : String :=
  cell_id ++ "_" ++ organelle ++ "_Sphericity.csv"

/-- Path of the volume file inside its folder. -/
def volPath (folder cell_id organelle : String) : String :=
  folder ++ "/" ++ volName cell_id organelle

/-- Path of the sphericity file inside its folder. -/
def spherPath (folder cell_id organelle : String) : String :=
  folder ++ "/" ++ spherName cell_id organelle

/-- File contents by path; `none` = the file does not exist. -/
abbrev FileSys := String → Option MCol

/-- Sentinels stored when the volume file is missing or fails to load. -/
def volumeSentinels : MetricsDict :=
  [("Mean_Volume", .nan), ("Count_Volume", .q 0),
   ("Total_Volume", .nan), ("Max_Volume", .nan)]

/-- Sentinels stored when the sphericity file is missing or fails to load. -/
def sphericitySentinels : MetricsDict :=
  [("Mean_Sphericity", .nan), ("Count_Sphericity", .q 0)]

/-- The volume half of `cell_metrics`. -/
def volumeMetrics (fs : FileSys) (folder cell_id organelle : String) : MetricsDict :=
  match fs (volPath folder cell_id organelle) with
  | some col =>
    match load_metric_file col .Volume with
    | .ok r =>
      [("Mean_Volume", .q (r.values.sum / r.values.length)),
       ("Count_Volume", .q r.values.length),
       ("Total_Volume", .q r.values.sum),
       ("Max_Volume", .q (listMax r.values))]
    | .error _ => volumeSentinels
  | none => volumeSentinels

/-- The sphericity half of `cell_metrics`. -/
def sphericityMetrics (fs : FileSys) (folder cell_id organelle : String) : MetricsDict :=
  match fs (spherPath folder cell_id organelle) with
  | some col =>
    match load_metric_file col .Sphericity with
    | .ok r =>
      [("Mean_Sphericity", .q (r.values.sum / r.values.length)),
       ("Count_Sphericity", .q r.values.length)]
    | .error _ => sphericitySentinels
  | none => sphericitySentinels

/-- The full `cell_metrics` dict of one folder (volume keys are assigned
first in the source, sphericity keys afterwards). -/
def cellMetrics (fs : FileSys) (organelle folder : String) : MetricsDict :=
  let cell_id := cellIdOf organelle folder
  volumeMetrics fs folder cell_id organelle
    ++ sphericityMetrics fs folder cell_id organelle

/-- The glob `*_\x7borganelle\x7d_Statistics` on one folder name. -/
def globStat (organelle name : String) : Bool :=
  ("_" ++ organelle ++ "_Statistics").data.isSuffixOf name.data

/-- `organelle_folders`: glob match plus shadow filtering. -/
def organelleFolders (organelle : String) (folders : List String) : List String :=
  filter_metadata_files (folders.filter (globStat organelle))

/-- The `continue` guard: skip the folder when an existing volume or
sphericity file is itself a shadow file. -/
def skipShadow (fs : FileSys) (organelle folder : String) : Bool :=
  let cell_id := cellIdOf organelle folder
  ((fs (volPath folder cell_id organelle)).isSome
      && is_macos_metadata_file (volName cell_id organelle))
    || ((fs (spherPath folder cell_id organelle)).isSome
      && is_macos_metadata_file (spherName cell_id organelle))

/-- The `results_dict` accumulated by `analyze_organelle`'s folder loop. -/
def resultsDict (organelle : String) (folders : List String) (fs : FileSys) :
    List (String × MetricsDict) :=
  (organelleFolders organelle folders).foldl (fun acc folder =>
    if skipShadow fs organelle folder then acc
    else dictInsert acc (cellIdOf organelle folder) (cellMetrics fs organelle folder)) []

/-- `VolSpherMetricsAnalyzer.analyze_organelle`: the final matrix as rows in
`ROW_ORDER`, columns the naturally sorted cell ids; each entry is the
reindex lookup (`none` would be a hole introduced by a missing metric
key). -/
def analyze_organelle (organelle : String) (folders : List String) (fs : FileSys) :
    List (String × List (String × Option MVal)) :=
  if (organelleFolders organelle folders).isEmpty then []
  else
    let rd := resultsDict organelle folders fs
    if rd.isEmpty then []
    else
      let sorted_cells := sort_cell_ids (rd.map Prod.fst)
      ROW_ORDER.map (fun m => (m, sorted_cells.map
        (fun c => (c, (dictLookup rd c).bind (fun md => dictLookup md m)))))

/-- Did an `Except` computation succeed? -/
def exceptIsOk {ε α : Type} : Except ε α → Bool
  | .ok _ => true
  | .error _ => false

/-- Access one entry of the metric matrix by row (metric) and column
(cell id). -/
def matrixEntry (out : List (String × List (String × Option MVal))) (m c : String) :
    Option (Option MVal) :=
  (dictLookup out m).bind (fun row => dictLookup row c)

/-- Fixture: per-cell results with two cells and one unobserved
relationship. -/
def sampleResults : Results := [("c1", [("ER-to-LD", ⟨5, 2⟩)]), ("c2", [])]

/-- Fixture: the summary tables `build_summary_tables` produces from
`sampleResults`. -/
def sampleTables : SummaryTables :=
  ⟨["ER-to-LD"], ["c1", "c2"],
   [("ER-to-LD", [("c1", ⟨some 5, 2, "Present"⟩), ("c2", ⟨none, 0, "Missing"⟩)])], 1⟩

/-! ## Theorems -/

theorem dictLookup_nil {K V : Type} [DecidableEq K] (k : K) :
    dictLookup ([] : List (K × V)) k = none := rfl

theorem dictLookup_cons {K V : Type} [DecidableEq K] (p : K × V) (l : List (K × V)) (k : K) :
    dictLookup (p :: l) k = if p.1 = k then some p.2 else dictLookup l k := by
  simp only [dictLookup]
  by_cases h : p.1 = k
  · rw [List.find?_cons_of_pos _ (by simpa using h), if_pos h]
    rfl
  · rw [List.find?_cons_of_neg _ (by simpa using h), if_neg h]

theorem dictLookup_insert {K V : Type} [DecidableEq K]
    (l : List (K × V)) (k k' : K) (v : V) :
    dictLookup (dictInsert l k v) k' = if k' = k then some v else dictLookup l k' := by
  induction l with
  | nil =>
    simp only [dictInsert, dictLookup_cons, dictLookup_nil]
    by_cases h : k' = k
    · subst h
      simp
    · rw [if_neg (fun hh => h hh.symm), if_neg h]
  | cons p rest ih =>
    by_cases hp : p.1 = k
    · rw [dictInsert, if_pos hp, dictLookup_cons]
      by_cases h : k' = k
      · subst h
        simp [dictLookup_cons]
      · rw [if_neg (fun hh => h hh.symm), if_neg h, dictLookup_cons,
          if_neg (fun hh : p.1 = k' => h (hp.symm.trans hh).symm)]
    · rw [dictInsert, if_neg hp, dictLookup_cons, ih, dictLookup_cons]
      by_cases hpk : p.1 = k'
      · have hk : ¬ k' = k := fun hh => hp (hpk.trans hh)
        rw [if_pos hpk, if_neg hk, if_pos hpk]
      · rw [if_neg hpk]
        by_cases h2 : k' = k <;> simp [h2, hpk]

theorem dictLookup_buildDict_aux {K V : Type} [DecidableEq K]
    (l : List (K × V)) (k : K) : ∀ acc : List (K × V),
    dictLookup (l.foldl (fun a p => dictInsert a p.1 p.2) acc) k =
      ((l.reverse.find? (fun p => decide (p.1 = k))).map Prod.snd).or (dictLookup acc k) := by
  induction l with
  | nil => intro acc; simp
  | cons p rest ih =>
    intro acc
    rw [List.foldl_cons, ih, List.reverse_cons, List.find?_append]
    cases hfind : rest.reverse.find? (fun q => decide (q.1 = k)) with
    | some q => simp
    | none =>
      rw [dictLookup_insert]
      by_cases h : p.1 = k
      · rw [List.find?_cons_of_pos _ (by simpa using h), if_pos h.symm]
        simp
      · rw [List.find?_cons_of_neg _ (by simpa using h), if_neg (fun hh : k = p.1 => h hh.symm)]
        simp

/-- A dict built from a binding list maps each key to the value of the *last*
binding carrying that key (CPython overwrite semantics). -/
theorem dictLookup_buildDict {K V : Type} [DecidableEq K] (l : List (K × V)) (k : K) :
    dictLookup (buildDict l) k =
      (l.reverse.find? (fun p => decide (p.1 = k))).map Prod.snd := by
  rw [buildDict, dictLookup_buildDict_aux]
  simp [dictLookup_nil]

theorem dictLookup_map_self {K V : Type} [DecidableEq K]
    (f : K → V) : ∀ (l : List K), l.Nodup → ∀ k ∈ l,
    dictLookup (l.map (fun x => (x, f x))) k = some (f k) := by
  intro l
  induction l with
  | nil => intro _ k hk; cases hk
  | cons x rest ih =>
    intro hnd k hk
    rcases List.mem_cons.mp hk with h | h
    · subst h
      simp [dictLookup_cons]
    · have hx : x ≠ k := by
        intro he; subst he
        exact (List.nodup_cons.mp hnd).1 h
      simp only [List.map_cons, dictLookup_cons, hx, if_false]
      exact ih (List.nodup_cons.mp hnd).2 k h

theorem mem_sortedDedup (l : List String) (x : String) :
    x ∈ sortedDedup l ↔ x ∈ l := by
  simp [sortedDedup, pySorted, List.mem_dedup]

theorem sortedDedup_nodup (l : List String) : (sortedDedup l).Nodup :=
  ((List.perm_insertionSort pyStrLe l.dedup).nodup_iff).mpr l.nodup_dedup

theorem sort_cell_ids_perm (l : List String) : List.Perm (sort_cell_ids l) l :=
  List.perm_insertionSort natKeyLe l

theorem mem_sort_cell_ids (l : List String) (x : String) :
    x ∈ sort_cell_ids l ↔ x ∈ l :=
  (sort_cell_ids_perm l).mem_iff

theorem load_distance_file_values (col : MCol) (r : LoadResult)
    (h : load_distance_file col = .ok r) :
    r.values = (col.filterMap id).filterMap PVal.toQ := by
  simp only [load_distance_file] at h
  split at h
  · cases h
  · split at h
    · cases h
    · split at h
      · cases h
      · cases h
        rfl

theorem load_metric_file_values (col : MCol) (m : Metric) (r : LoadResult)
    (h : load_metric_file col m = .ok r) :
    r.values = (col.filterMap id).filterMap PVal.toQ := by
  cases m with
  | Sphericity =>
    simp only [load_metric_file] at h
    split at h
    · cases h
    · split at h
      · cases h
      · split at h
        · cases h
        · cases h
          rfl
  | Volume =>
    simp only [load_metric_file] at h
    split at h
    · cases h
    · split at h
      · cases h
      · split at h
        · cases h
        · split at h
          · cases h
          · cases h
            rfl

/-- A value list with no infinities passes the infinity check. -/
theorem not_any_isInf {col : MCol}
    (hfin : ∀ v : PVal, some v ∈ col → v.isInf = false) :
    (col.filterMap id).any PVal.isInf = false := by
  rw [List.any_eq_false]
  intro v hv
  have hv' : some v ∈ col := by
    rcases List.mem_filterMap.mp hv with ⟨o, ho, hov⟩
    cases o with
    | none => cases hov
    | some w => cases hov; exact ho
  simp [hfin v hv']

theorem parseFolders_fst (names : List String) :
    (parseFolders names).1 =
      names.filterMap (fun n => (parseFolder n).map (fun p => ⟨n, p.1, p.2⟩)) := by
  induction names with
  | nil => rfl
  | cons n rest ih =>
    simp only [parseFolders, parseFolder, List.filterMap_cons]
    cases hc : cellIdOfName n with
    | none => simpa using ih
    | some c =>
      cases ho : organelleOfName n with
      | none => simpa using ih
      | some o => simpa using ih

theorem parseFolders_snd_length (names : List String) :
    (parseFolders names).2.length =
      (names.filter (fun n => (parseFolder n).isNone)).length := by
  induction names with
  | nil => rfl
  | cons n rest ih =>
    simp only [parseFolders, parseFolder, List.filter_cons]
    cases hc : cellIdOfName n with
    | none => simpa using ih
    | some c =>
      cases ho : organelleOfName n with
      | none => simpa using ih
      | some o => simpa using ih

theorem mem_dictInsert {K V : Type} [DecidableEq K]
    {l : List (K × V)} {k : K} {v : V} {p : K × V}
    (h : p ∈ dictInsert l k v) : p = (k, v) ∨ p ∈ l := by
  induction l with
  | nil =>
    simp only [dictInsert, List.mem_singleton] at h
    exact Or.inl h
  | cons q rest ih =>
    simp only [dictInsert] at h
    split at h
    · rcases List.mem_cons.mp h with h1 | h1
      · exact Or.inl h1
      · exact Or.inr (List.mem_cons_of_mem _ h1)
    · rcases List.mem_cons.mp h with h1 | h1
      · exact Or.inr (h1 ▸ List.mem_cons_self _ _)
      · rcases ih h1 with h2 | h2
        · exact Or.inl h2
        · exact Or.inr (List.mem_cons_of_mem _ h2)

/-- Every binding stored by the `analyze_cell` loop comes from a
successfully loaded file of the input list, and carries that file's
statistics. -/
theorem analyze_cell_files_mem_aux (files : List (String × String × MCol)) :
    ∀ (acc : List (String × CellStats)) (label : String) (st : CellStats),
    (label, st) ∈ files.foldl (fun interactions f =>
      match load_distance_file f.2.2 with
      | .error _ => interactions
      | .ok r =>
        match seriesMean r.values with
        | none => interactions
        | some m => dictInsert interactions (f.1 ++ "-to-" ++ f.2.1) ⟨m, countLe0 r.values⟩) acc →
    (label, st) ∈ acc ∨
      ∃ src tgt col r, (src, tgt, col) ∈ files ∧ load_distance_file col = .ok r ∧
        label = src ++ "-to-" ++ tgt ∧ seriesMean r.values = some st.mean ∧
        st.count = countLe0 r.values := by
  induction files with
  | nil => intro acc label st h; exact Or.inl h
  | cons f rest ih =>
    intro acc label st h
    rw [List.foldl_cons] at h
    rcases ih _ label st h with hacc | ⟨src, tgt, col, r, hmem, hload, hlabel, hmean, hcount⟩
    · cases hload : load_distance_file f.2.2 with
      | error e =>
        rw [hload] at hacc
        exact Or.inl hacc
      | ok r =>
        rw [hload] at hacc
        cases hmean : seriesMean r.values with
        | none =>
          simp only [hmean] at hacc
          exact Or.inl hacc
        | some m =>
          simp only [hmean] at hacc
          rcases mem_dictInsert hacc with heq | hin
          · refine Or.inr ⟨f.1, f.2.1, f.2.2, r, List.mem_cons_self _ _, hload, ?_, ?_, ?_⟩
            · exact congrArg Prod.fst heq
            · rw [hmean]
              have : st = (⟨m, countLe0 r.values⟩ : CellStats) := congrArg Prod.snd heq
              rw [this]
            · have : st = (⟨m, countLe0 r.values⟩ : CellStats) := congrArg Prod.snd heq
              rw [this]
          · exact Or.inl hin
    · exact Or.inr ⟨src, tgt, col, r, List.mem_cons_of_mem _ hmem, hload, hlabel, hmean, hcount⟩

theorem splitRuns_cons_cons (c d : Char) (ds : List Char) (rs : List (List Char))
    (rest : List Char) (hs : splitRuns rest = (d :: ds) :: rs) :
    splitRuns (c :: rest) =
      if c.isDigit = d.isDigit then (c :: d :: ds) :: rs else [c] :: (d :: ds) :: rs := by
  simp only [splitRuns, hs]

theorem splitRuns_cons_nil (c : Char) (rest : List Char) (hs : splitRuns rest = []) :
    splitRuns (c :: rest) = [[c]] := by
  simp only [splitRuns, hs]

theorem splitRuns_cons_emptyrun (c : Char) (rest : List Char) (rs : List (List Char))
    (hs : splitRuns rest = [] :: rs) :
    splitRuns (c :: rest) = [c] :: rs := by
  simp only [splitRuns, hs]

theorem splitRuns_join : ∀ l : List Char, (splitRuns l).flatten = l := by
  intro l
  induction l with
  | nil => rfl
  | cons c rest ih =>
    cases hs : splitRuns rest with
    | nil =>
      rw [hs] at ih
      simp at ih
      rw [splitRuns_cons_nil c rest hs]
      simp [ih]
    | cons r rs =>
      rw [hs] at ih
      cases r with
      | nil =>
        rw [splitRuns_cons_emptyrun c rest rs hs]
        simp only [List.flatten_cons] at ih ⊢
        simp at ih
        simp [ih]
      | cons d ds =>
        rw [splitRuns_cons_cons c d ds rs rest hs]
        by_cases hd : c.isDigit = d.isDigit
        · rw [if_pos hd]
          simp only [List.flatten_cons] at ih ⊢
          simp [← ih]
        · rw [if_neg hd]
          simp only [List.flatten_cons] at ih ⊢
          simp [← ih]

theorem splitRuns_runs : ∀ l : List Char, ∀ r ∈ splitRuns l,
    r ≠ [] ∧ ∀ c ∈ r, ∀ d ∈ r, c.isDigit = d.isDigit := by
  intro l
  induction l with
  | nil => intro r hr; cases hr
  | cons c rest ih =>
    intro r hr
    cases hs : splitRuns rest with
    | nil =>
      rw [splitRuns_cons_nil c rest hs] at hr
      rcases List.mem_singleton.mp hr with rfl
      refine ⟨by simp, ?_⟩
      intro x hx y hy
      rcases List.mem_singleton.mp hx with rfl
      rcases List.mem_singleton.mp hy with rfl
      rfl
    | cons q qs =>
      cases q with
      | nil =>
        exact absurd rfl (ih [] (hs ▸ List.mem_cons_self _ _)).1
      | cons d ds =>
        rw [splitRuns_cons_cons c d ds qs rest hs] at hr
        by_cases hd : c.isDigit = d.isDigit
        · rw [if_pos hd] at hr
          rcases List.mem_cons.mp hr with rfl | hmem
          · refine ⟨by simp, ?_⟩
            have hq := ih (d :: ds) (hs ▸ List.mem_cons_self _ _)
            intro x hx y hy
            rcases List.mem_cons.mp hx with rfl | hx'
            · rcases List.mem_cons.mp hy with rfl | hy'
              · rfl
              · exact hd.trans (hq.2 d (List.mem_cons_self _ _) y hy')
            · rcases List.mem_cons.mp hy with rfl | hy'
              · exact (hq.2 x hx' d (List.mem_cons_self _ _)).trans hd.symm
              · exact hq.2 x hx' y hy'
          · exact ih r (hs ▸ List.mem_cons_of_mem _ hmem)
        · rw [if_neg hd] at hr
          rcases List.mem_cons.mp hr with rfl | hmem
          · refine ⟨by simp, ?_⟩
            intro x hx y hy
            rcases List.mem_singleton.mp hx with rfl
            rcases List.mem_singleton.mp hy with rfl
            rfl
          · exact ih r (hs ▸ hmem)

theorem splitRuns_alternate : ∀ l : List Char,
    List.Chain' (fun r t => ∀ c ∈ r, ∀ d ∈ t, c.isDigit ≠ d.isDigit) (splitRuns l) := by
  intro l
  induction l with
  | nil => simp [splitRuns]
  | cons c rest ih =>
    cases hs : splitRuns rest with
    | nil => rw [splitRuns_cons_nil c rest hs]; simp
    | cons q qs =>
      rw [hs] at ih
      cases q with
      | nil =>
        exact absurd rfl (splitRuns_runs rest [] (hs ▸ List.mem_cons_self _ _)).1
      | cons d ds =>
        rw [splitRuns_cons_cons c d ds qs rest hs]
        by_cases hd : c.isDigit = d.isDigit
        · rw [if_pos hd]
          cases qs with
          | nil => simp
          | cons t ts =>
            rw [List.chain'_cons] at ih ⊢
            refine ⟨?_, ih.2⟩
            intro x hx y hy
            rcases List.mem_cons.mp hx with rfl | hx'
            · rw [hd]
              exact ih.1 d (List.mem_cons_self _ _) y hy
            · exact ih.1 x hx' y hy
        · rw [if_neg hd]
          rw [List.chain'_cons]
          refine ⟨?_, ih⟩
          intro x hx y hy
          rcases List.mem_singleton.mp hx with rfl
          have hq := splitRuns_runs rest (d :: ds) (hs ▸ List.mem_cons_self _ _)
          have : y.isDigit = d.isDigit := hq.2 y hy d (List.mem_cons_self _ _)
          rw [this]
          exact hd

/-- Claim C6: `natural_sort_key` splits its input at digit/non-digit
boundaries (the fragments concatenate back to the input, are nonempty and
digit-uniform, and adjacent fragments differ in digitness), maps numeric
fragments to tag-0/integer-value and all other fragments to
tag-1/lowercase, and the induced sort is idempotent, places "x2" before
"x10", and always compares same-position fragments (the key order is
total, so no numeric/text comparison failure can occur). -/
theorem C6_natural_sort_key :
    (∀ s : String, (splitRuns s.data).flatten = s.data) ∧
    (∀ s : String, ∀ r ∈ splitRuns s.data,
        r ≠ [] ∧ ∀ c ∈ r, ∀ d ∈ r, c.isDigit = d.isDigit) ∧
    (∀ s : String, List.Chain'
        (fun r t => ∀ c ∈ r, ∀ d ∈ t, c.isDigit ≠ d.isDigit) (splitRuns s.data)) ∧
    (∀ s : String, natural_sort_key s = (splitRuns s.data).map toFrag) ∧
    (∀ run : List Char, run ≠ [] → run.all Char.isDigit = true →
        toFrag run = toLex (Sum.inl (digitsToNat run))) ∧
    (∀ run : List Char, ¬ (run ≠ [] ∧ run.all Char.isDigit = true) →
        toFrag run = toLex (Sum.inr (run.map Char.toLower))) ∧
    (∀ l : List String, sort_cell_ids (sort_cell_ids l) = sort_cell_ids l) ∧
    sort_cell_ids ["x10", "x2"] = ["x2", "x10"] ∧
    (∀ a b : String, natKeyLe a b ∨ natKeyLe b a) := by
  refine ⟨fun s => splitRuns_join s.data,
    fun s => splitRuns_runs s.data,
    fun s => splitRuns_alternate s.data,
    fun s => rfl,
    ?_, ?_, ?_, by decide, fun a b => le_total _ _⟩
  · intro run h1 h2
    simp only [toFrag]
    rw [if_pos ⟨h1, h2⟩]
  · intro run h
    simp only [toFrag]
    rw [if_neg h]
  · intro l
    exact (List.sorted_insertionSort natKeyLe l).insertionSort_eq

/-- Witness for C6 at concrete inputs. -/
theorem C6_witness :
    ((['x'] ≠ [] ∧ ∀ c ∈ ['x'], ∀ d ∈ ['x'], c.isDigit = d.isDigit) ∧
      toFrag ['2'] = toLex (Sum.inl (digitsToNat ['2'])) ∧
      toFrag ['x'] = toLex (Sum.inr (['x'].map Char.toLower)) ∧
      sort_cell_ids (sort_cell_ids ["x10", "x2", "a"]) = sort_cell_ids ["x10", "x2", "a"]) :=
  ⟨C6_natural_sort_key.2.1 "x2" ['x'] (by decide),
    C6_natural_sort_key.2.2.2.2.1 ['2'] (by decide) (by decide),
    C6_natural_sort_key.2.2.2.2.2.1 ['x'] (by decide),
    C6_natural_sort_key.2.2.2.2.2.2.1 ["x10", "x2", "a"]⟩

theorem load_distance_file_ok (col : MCol)
    (hne : ¬ (col.filterMap id).length = 0)
    (hinf : (col.filterMap id).any PVal.isInf = false) :
    load_distance_file col =
      .ok ⟨(col.filterMap id).filterMap PVal.toQ,
           if ((col.filterMap id).filterMap PVal.toQ).any (fun q => 100000 < |q|) then
             ["Unusually large distance values"] else []⟩ := by
  have hcol : ¬ col.length < 1 := by
    cases col with
    | nil => simp at hne
    | cons a l => simp
  simp only [load_distance_file, if_neg hcol, if_neg hne, hinf]
  simp

theorem load_metric_file_sphericity_ok (col : MCol)
    (hne : ¬ (col.filterMap id).length = 0)
    (hinf : (col.filterMap id).any PVal.isInf = false) :
    load_metric_file col .Sphericity =
      .ok ⟨(col.filterMap id).filterMap PVal.toQ,
           if ((col.filterMap id).filterMap PVal.toQ).any (fun q => q < 0)
              || ((col.filterMap id).filterMap PVal.toQ).any (fun q => 1 < q) then
             ["Sphericity values outside expected range"] else []⟩ := by
  have hcol : ¬ col.length < 1 := by
    cases col with
    | nil => simp at hne
    | cons a l => simp
  simp only [load_metric_file, if_neg hcol, if_neg hne, hinf]
  simp

theorem mem_values_of_mem_col {col : MCol} {q : ℚ} (h : some (PVal.fin q) ∈ col) :
    q ∈ (col.filterMap id).filterMap PVal.toQ := by
  have h1 : PVal.fin q ∈ col.filterMap id := List.mem_filterMap.mpr ⟨some (PVal.fin q), h, rfl⟩
  exact List.mem_filterMap.mpr ⟨PVal.fin q, h1, rfl⟩

theorem filterMap_ne_zero_of_mem {col : MCol} {v : PVal} (h : some v ∈ col) :
    ¬ (col.filterMap id).length = 0 := by
  intro h0
  rw [List.length_eq_zero] at h0
  have h1 : v ∈ col.filterMap id := List.mem_filterMap.mpr ⟨some v, h, rfl⟩
  rw [h0] at h1
  cases h1

/-- Claim C3: any infinite value makes either loader raise; a distance file
with negative values loads successfully with the negatives included; a
volume file with any negative value raises; a sphericity file with values
outside `[0, 1]` loads successfully with a warning and those values
included in the returned series. -/
theorem C3_loader_rules :
    (∀ col : MCol, some PVal.inf ∈ col →
        exceptIsOk (load_distance_file col) = false ∧
        ∀ m : Metric, exceptIsOk (load_metric_file col m) = false) ∧
    (∀ (col : MCol) (q : ℚ), (∀ v : PVal, some v ∈ col → v.isInf = false) →
        some (PVal.fin q) ∈ col → q < 0 →
        ∃ r : LoadResult, load_distance_file col = .ok r ∧ q ∈ r.values) ∧
    (∀ (col : MCol) (q : ℚ), some (PVal.fin q) ∈ col → q < 0 →
        exceptIsOk (load_metric_file col .Volume) = false) ∧
    (∀ (col : MCol) (q : ℚ), (∀ v : PVal, some v ∈ col → v.isInf = false) →
        some (PVal.fin q) ∈ col → (q < 0 ∨ 1 < q) →
        ∃ r : LoadResult, load_metric_file col .Sphericity = .ok r ∧
          q ∈ r.values ∧ r.warnings ≠ []) := by
  have hhead : ∀ (col : MCol), some PVal.inf ∈ col →
      ¬ col.length < 1 ∧ ¬ (col.filterMap id).length = 0 ∧
      (col.filterMap id).any PVal.isInf = true := by
    intro col hin
    have hmem : PVal.inf ∈ col.filterMap id := List.mem_filterMap.mpr ⟨some PVal.inf, hin, rfl⟩
    refine ⟨?_, filterMap_ne_zero_of_mem hin, List.any_eq_true.mpr ⟨PVal.inf, hmem, rfl⟩⟩
    cases col with
    | nil => cases hin
    | cons a l => simp
  refine ⟨?_, ?_, ?_, ?_⟩
  · intro col hin
    obtain ⟨h1, h2, h3⟩ := hhead col hin
    constructor
    · simp only [load_distance_file, if_neg h1, if_neg h2, h3]
      rfl
    · intro m
      cases m with
      | Volume =>
        simp only [load_metric_file, if_neg h1, if_neg h2, h3]
        rfl
      | Sphericity =>
        simp only [load_metric_file, if_neg h1, if_neg h2, h3]
        rfl
  · intro col q hfin hq _
    refine ⟨_, load_distance_file_ok col (filterMap_ne_zero_of_mem hq) (not_any_isInf hfin), ?_⟩
    exact mem_values_of_mem_col hq
  · intro col q hq hneg
    have hmemq : q ∈ (col.filterMap id).filterMap PVal.toQ := mem_values_of_mem_col hq
    have h1 : ¬ col.length < 1 := by
      cases col with
      | nil => cases hq
      | cons a l => simp
    have h2 : ¬ (col.filterMap id).length = 0 := filterMap_ne_zero_of_mem hq
    cases h3 : (col.filterMap id).any PVal.isInf with
    | true =>
      simp only [load_metric_file, if_neg h1, if_neg h2, h3]
      rfl
    | false =>
      have h4 : ((col.filterMap id).filterMap PVal.toQ).any (fun x => x < 0) = true :=
        List.any_eq_true.mpr ⟨q, hmemq, by simpa using hneg⟩
      simp only [load_metric_file, if_neg h1, if_neg h2, h3, h4]
      simp [exceptIsOk]
  · intro col q hfin hq hrange
    refine ⟨_, load_metric_file_sphericity_ok col (filterMap_ne_zero_of_mem hq)
      (not_any_isInf hfin), mem_values_of_mem_col hq, ?_⟩
    have hcond : (((col.filterMap id).filterMap PVal.toQ).any (fun x => x < 0)
        || ((col.filterMap id).filterMap PVal.toQ).any (fun x => 1 < x)) = true := by
      rcases hrange with h | h
      · exact Bool.or_eq_true_iff.mpr
          (Or.inl (List.any_eq_true.mpr ⟨q, mem_values_of_mem_col hq, by simpa using h⟩))
      · exact Bool.or_eq_true_iff.mpr
          (Or.inr (List.any_eq_true.mpr ⟨q, mem_values_of_mem_col hq, by simpa using h⟩))
    rw [hcond]
    simp

/-- Witness for C3 at concrete one-value files. -/
theorem C3_witness :
    exceptIsOk (load_distance_file [some PVal.inf]) = false ∧
    (∃ r : LoadResult, load_distance_file [some (PVal.fin (-5))] = .ok r ∧
      (-5 : ℚ) ∈ r.values) ∧
    exceptIsOk (load_metric_file [some (PVal.fin (-5))] .Volume) = false ∧
    (∃ r : LoadResult, load_metric_file [some (PVal.fin (6 / 5))] .Sphericity = .ok r ∧
      (6 / 5 : ℚ) ∈ r.values ∧ r.warnings ≠ []) := by
  have hfin1 : ∀ v : PVal, some v ∈ [some (PVal.fin (-5))] → v.isInf = false := by
    intro v hv
    have h := List.mem_singleton.mp hv
    have h2 := Option.some.inj h
    subst h2
    rfl
  have hfin2 : ∀ v : PVal, some v ∈ [some (PVal.fin (6 / 5))] → v.isInf = false := by
    intro v hv
    have h := List.mem_singleton.mp hv
    have h2 := Option.some.inj h
    subst h2
    rfl
  exact ⟨(C3_loader_rules.1 [some PVal.inf] (by simp)).1,
    C3_loader_rules.2.1 [some (PVal.fin (-5))] (-5) hfin1 (by simp) (by norm_num),
    C3_loader_rules.2.2.1 [some (PVal.fin (-5))] (-5) (by simp) (by norm_num),
    C3_loader_rules.2.2.2 [some (PVal.fin (6 / 5))] (6 / 5) hfin2 (by simp)
      (Or.inr (by norm_num))⟩

theorem find_cell_folders_ok_inv (listing : List String) (d : Discovery) (ws : List String)
    (h : find_cell_folders listing = .ok (d, ws)) :
    d.cell_folders = (parseFolders (statDirs listing)).1 ∧
    ws = (parseFolders (statDirs listing)).2 ∧
    d.unique_cells = sortedDedup (d.cell_folders.map FolderRec.cell_id) ∧
    d.all_organelles = sortedDedup (d.cell_folders.map FolderRec.organelle) ∧
    d.folder_lookup = buildDict (d.cell_folders.map (fun f => ((f.cell_id, f.organelle), f))) ∧
    d.cells_to_organelles = buildC2O d.cell_folders := by
  simp only [find_cell_folders] at h
  split at h
  · cases h
  · split at h
    · cases h
    · cases h
      exact ⟨rfl, rfl, rfl, rfl, rfl, rfl⟩

theorem mem_statDirs {listing : List String} {n : String} (h : n ∈ statDirs listing) :
    n ∈ listing ∧ endsWithStatistics n = true ∧ is_macos_metadata_file n = false := by
  simp only [statDirs, filter_metadata_files] at h
  have h1 := List.mem_filter.mp h
  have h2 := List.mem_filter.mp h1.1
  refine ⟨h2.1, h2.2, ?_⟩
  have := h1.2
  simp at this
  exact this

/-- Counterexample to claim C2: `detect_structure` applies no shadow
filtering, so a directory listing holding only a shadow entry whose name
ends in `_Statistics` selects the flat layout. -/
theorem C2_counterexample :
    detect_structure [⟨"._shadow_ER_Statistics", []⟩] = .ok .flat ∧
    is_macos_metadata_file "._shadow_ER_Statistics" = true :=
  ⟨rfl, rfl⟩

/-- Claim C2 as amended: in entity discovery (`find_cell_folders`) shadow
entries are excluded from the listing before any naming-convention pattern
matching — no shadow entry ever becomes a folder record, and a listing of
only shadow entries yields a structural error, so a shadow entry alone can
never cause a category folder to be discovered — but structure detection
performs no such filtering (see the counterexample). -/
theorem C2_discovery_filters_shadow :
    (∀ listing : List String, ∀ n ∈ statDirs listing, is_macos_metadata_file n = false) ∧
    (∀ (listing : List String) (d : Discovery) (ws : List String),
        find_cell_folders listing = .ok (d, ws) →
        ∀ f ∈ d.cell_folders, is_macos_metadata_file f.folder_name = false) ∧
    (∀ listing : List String, (∀ n ∈ listing, is_macos_metadata_file n = true) →
        exceptIsOk (find_cell_folders listing) = false) := by
  refine ⟨?_, ?_, ?_⟩
  · intro listing n hn
    exact (mem_statDirs hn).2.2
  · intro listing d ws h f hf
    rw [(find_cell_folders_ok_inv listing d ws h).1, parseFolders_fst] at hf
    rcases List.mem_filterMap.mp hf with ⟨n, hn, hparse⟩
    cases hp : parseFolder n with
    | none => rw [hp] at hparse; cases hparse
    | some p =>
      rw [hp] at hparse
      have : f.folder_name = n := by cases hparse; rfl
      rw [this]
      exact (mem_statDirs hn).2.2
  · intro listing hall
    have hsd : statDirs listing = [] := by
      simp only [statDirs, filter_metadata_files]
      rw [List.filter_eq_nil_iff]
      intro n hn
      have hmem := (List.mem_filter.mp hn).1
      simp [hall n hmem]
    simp only [find_cell_folders, hsd]
    rfl

/-- Witness for C2 at concrete listings. -/
theorem C2_witness :
    is_macos_metadata_file "b_ER_Statistics" = false ∧
    exceptIsOk (find_cell_folders ["._a_ER_Statistics"]) = false := by
  constructor
  · exact C2_discovery_filters_shadow.1 ["._a_ER_Statistics", "b_ER_Statistics"]
      "b_ER_Statistics" (by decide)
  · refine C2_discovery_filters_shadow.2.2 ["._a_ER_Statistics"] ?_
    intro n hn
    rcases List.mem_singleton.mp hn with rfl
    rfl

/-- Claim C7: a folder failing either naming rule is skipped with a warning
and does not abort discovery; discovery errors exactly when no listed
folder parses; on success, both lookup indices are built from the same
parsed folder list. -/
theorem C7_discovery_error_handling :
    (∀ listing : List String,
        exceptIsOk (find_cell_folders listing) = true ↔
          ∃ n ∈ statDirs listing, (parseFolder n).isSome = true) ∧
    (∀ (listing : List String) (d : Discovery) (ws : List String),
        find_cell_folders listing = .ok (d, ws) →
        d.cell_folders = (statDirs listing).filterMap
            (fun n => (parseFolder n).map (fun p => ⟨n, p.1, p.2⟩)) ∧
        ws.length = ((statDirs listing).filter (fun n => (parseFolder n).isNone)).length ∧
        d.folder_lookup = buildDict (d.cell_folders.map (fun f => ((f.cell_id, f.organelle), f))) ∧
        d.cells_to_organelles = buildC2O d.cell_folders) := by
  constructor
  · intro listing
    simp only [find_cell_folders]
    split
    · rename_i hse
      rw [List.isEmpty_iff] at hse
      simp [exceptIsOk, hse]
    · rename_i hse
      split
      · rename_i hpe
        rw [List.isEmpty_iff, parseFolders_fst, List.filterMap_eq_nil_iff] at hpe
        simp only [exceptIsOk]
        constructor
        · intro h; cases h
        · rintro ⟨n, hn, hsome⟩
          have hthis := hpe n hn
          cases hp : parseFolder n with
          | none => rw [hp] at hsome; cases hsome
          | some p => rw [hp] at hthis; simp at hthis
      · rename_i hpe
        rw [List.isEmpty_iff, parseFolders_fst] at hpe
        simp only [exceptIsOk, true_iff]
        rcases List.exists_mem_of_ne_nil _ hpe with ⟨f, hf⟩
        rcases List.mem_filterMap.mp hf with ⟨n, hn, hparse⟩
        refine ⟨n, hn, ?_⟩
        cases hp : parseFolder n with
        | none => rw [hp] at hparse; cases hparse
        | some p => rfl
  · intro listing d ws h
    obtain ⟨h1, h2, _, _, h5, h6⟩ := find_cell_folders_ok_inv listing d ws h
    refine ⟨by rw [h1, parseFolders_fst], ?_, by rw [h5], by rw [h6]⟩
    rw [h2, parseFolders_snd_length]

/-- Claim C9: after discovery, an unknown `(cell, organelle)` key returns an
empty list rather than raising; the structural error occurs exactly when the
call happens before discovery. -/
theorem C9_get_distance_files_guards :
    (∀ (st : Option Discovery) (folderFiles : String → List String) (c o : String),
        (exceptIsOk (get_distance_files st folderFiles c o) = false ↔ st = none)) ∧
    (∀ (d : Discovery) (folderFiles : String → List String) (c o : String),
        dictLookup d.folder_lookup (c, o) = none →
        get_distance_files (some d) folderFiles c o = .ok []) := by
  constructor
  · intro st folderFiles c o
    cases st with
    | none => simp [get_distance_files, exceptIsOk]
    | some d =>
      simp only [get_distance_files]
      cases h : dictLookup d.folder_lookup (c, o) with
      | none => simp [exceptIsOk]
      | some f => simp [exceptIsOk]
  · intro d folderFiles c o h
    simp only [get_distance_files, h]

/-- Witness for C9: a never-discovered state errors; a discovered state with
an unknown key returns the empty list. -/
theorem C9_witness :
    exceptIsOk (get_distance_files none (fun _ => []) "c1" "ER") = false ∧
    get_distance_files (some ⟨[], [], [], [], []⟩) (fun _ => []) "c1" "ER" = .ok [] :=
  ⟨(C9_get_distance_files_guards.1 none (fun _ => []) "c1" "ER").mpr rfl,
    C9_get_distance_files_guards.2 ⟨[], [], [], [], []⟩ (fun _ => []) "c1" "ER" rfl⟩

theorem find?_ext {α : Type} (p q : α → Bool) (h : ∀ a, p a = q a) :
    ∀ l : List α, l.find? p = l.find? q := by
  intro l
  induction l with
  | nil => rfl
  | cons a l ih =>
    cases hq : q a with
    | true =>
      rw [List.find?_cons_of_pos _ (by simp [h a, hq]), List.find?_cons_of_pos _ (by simp [hq])]
    | false =>
      rw [List.find?_cons_of_neg _ (by simp [h a, hq]),
        List.find?_cons_of_neg _ (by simp [hq]), ih]

theorem dictLookup_appendToKey {K V : Type} [DecidableEq K]
    (acc : List (K × List V)) (k : K) (v : V) (c : K) :
    dictLookup (appendToKey acc k v) c =
      if c = k then some ((dictLookup acc k).getD [] ++ [v]) else dictLookup acc c := by
  induction acc with
  | nil =>
    simp only [appendToKey, dictLookup_cons, dictLookup_nil]
    by_cases h : c = k
    · subst h; simp
    · rw [if_neg (fun hh => h hh.symm), if_neg h]
  | cons p rest ih =>
    by_cases hp : p.1 = k
    · simp only [appendToKey, if_pos hp, dictLookup_cons]
      by_cases h : c = k
      · subst h
        simp [hp]
      · have hpc : ¬ p.1 = c := fun hh => h (hp.symm.trans hh).symm
        simp [hpc, h]
    · simp only [appendToKey, if_neg hp, dictLookup_cons, ih]
      by_cases hpc : p.1 = c
      · have hck : ¬ c = k := fun hh => hp (hpc.trans hh)
        simp [hpc, hck]
      · by_cases h2 : c = k
        · subst h2
          simp [hpc, hp]
        · simp [hpc, h2]

theorem dictLookup_buildC2O_aux (rest : List FolderRec) :
    ∀ (acc : List (String × List String)) (c : String),
    dictLookup (rest.foldl (fun a f => appendToKey a f.cell_id f.organelle) acc) c =
      match dictLookup acc c with
      | some vs => some (vs ++ (rest.filter
          (fun f => decide (f.cell_id = c))).map FolderRec.organelle)
      | none =>
        if (rest.filter (fun f => decide (f.cell_id = c))).isEmpty then none
        else some ((rest.filter (fun f => decide (f.cell_id = c))).map FolderRec.organelle) := by
  induction rest with
  | nil =>
    intro acc c
    cases h : dictLookup acc c <;> simp [h]
  | cons f rest ih =>
    intro acc c
    rw [List.foldl_cons, ih, dictLookup_appendToKey]
    by_cases hc : c = f.cell_id
    · rw [if_pos hc]
      have hfc : decide (f.cell_id = c) = true := by simp [hc]
      simp only [List.filter_cons, hfc, if_pos]
      cases h : dictLookup acc c with
      | some vs =>
        rw [hc] at h
        rw [h]
        simp
      | none =>
        rw [hc] at h
        rw [h]
        simp
    · rw [if_neg hc]
      have hfc : decide (f.cell_id = c) = false := by
        simp
        exact fun hh => hc hh.symm
      simp only [List.filter_cons, hfc]
      rfl

theorem dictLookup_buildC2O (l : List FolderRec) (c : String) :
    dictLookup (buildC2O l) c =
      if (l.filter (fun f => decide (f.cell_id = c))).isEmpty then none
      else some ((l.filter (fun f => decide (f.cell_id = c))).map FolderRec.organelle) := by
  rw [buildC2O, dictLookup_buildC2O_aux]
  simp [dictLookup_nil]

/-- Claim C10: with duplicate `(entity, category)` folders, the exact-key
index maps the pair to the record of the *last* folder in listing order,
while `cell_folders` keeps one record per listed folder and the
entity→categories index lists the category once per folder. -/
theorem C10_duplicate_key_semantics :
    ∀ (listing : List String) (d : Discovery) (ws : List String),
      find_cell_folders listing = .ok (d, ws) →
      (∀ key : String × String,
        dictLookup d.folder_lookup key =
          d.cell_folders.reverse.find? (fun f => decide ((f.cell_id, f.organelle) = key))) ∧
      d.cell_folders = (statDirs listing).filterMap
          (fun n => (parseFolder n).map (fun p => ⟨n, p.1, p.2⟩)) ∧
      (∀ c : String,
        dictLookup d.cells_to_organelles c =
          if (d.cell_folders.filter (fun f => decide (f.cell_id = c))).isEmpty then none
          else some ((d.cell_folders.filter
              (fun f => decide (f.cell_id = c))).map FolderRec.organelle)) := by
  intro listing d ws h
  obtain ⟨h1, _, _, _, h5, h6⟩ := find_cell_folders_ok_inv listing d ws h
  refine ⟨?_, by rw [h1, parseFolders_fst], ?_⟩
  · intro key
    rw [h5, dictLookup_buildDict, ← List.map_reverse, List.find?_map,
      find?_ext ((fun p : (String × String) × FolderRec => decide (p.1 = key)) ∘
          (fun f : FolderRec => ((f.cell_id, f.organelle), f)))
        (fun f : FolderRec => decide ((f.cell_id, f.organelle) = key)) (fun f => rfl)]
    cases hg : d.cell_folders.reverse.find? (fun f => decide ((f.cell_id, f.organelle) = key)) with
    | none => rfl
    | some g => rfl
  · intro c
    rw [h6, dictLookup_buildC2O]

/-- Witness for C7: a listing with one parseable and one malformed folder
discovers the parseable one, warns once, and succeeds. -/
theorem C7_witness :
    exceptIsOk (find_cell_folders ["a_ER_Statistics", "bad_folder_Statistics"]) = true ∧
    ([⟨"a_ER_Statistics", "a", "ER"⟩] : List FolderRec) =
      (statDirs ["a_ER_Statistics", "bad_folder_Statistics"]).filterMap
        (fun n => (parseFolder n).map (fun p => ⟨n, p.1, p.2⟩)) ∧
    (["Could not parse cell ID from bad_folder_Statistics"] : List String).length =
      ((statDirs ["a_ER_Statistics", "bad_folder_Statistics"]).filter
        (fun n => (parseFolder n).isNone)).length := by
  have h : find_cell_folders ["a_ER_Statistics", "bad_folder_Statistics"] =
      .ok (⟨[⟨"a_ER_Statistics", "a", "ER"⟩], ["a"], ["ER"],
            [(("a", "ER"), ⟨"a_ER_Statistics", "a", "ER"⟩)], [("a", ["ER"])]⟩,
           ["Could not parse cell ID from bad_folder_Statistics"]) := rfl
  have h2 := C7_discovery_error_handling.2 _ _ _ h
  exact ⟨(C7_discovery_error_handling.1 _).mpr ⟨"a_ER_Statistics", by decide, by decide⟩,
    h2.1, h2.2.1⟩

/-- Witness for C10: a listing naming the same `(entity, category)` twice
keeps both folder records, lists the category twice in the
entity→categories index, and resolves the exact key to the last record. -/
theorem C10_witness :
    (dictLookup [(("a", "ER"), (⟨"a_ER_Statistics", "a", "ER"⟩ : FolderRec))] ("a", "ER") =
      ([(⟨"a_ER_Statistics", "a", "ER"⟩ : FolderRec),
        ⟨"a_ER_Statistics", "a", "ER"⟩]).reverse.find?
        (fun f => decide ((f.cell_id, f.organelle) = ("a", "ER")))) ∧
    (dictLookup [("a", ["ER", "ER"])] "a" =
      if (([(⟨"a_ER_Statistics", "a", "ER"⟩ : FolderRec),
            ⟨"a_ER_Statistics", "a", "ER"⟩]).filter
          (fun f => decide (f.cell_id = "a"))).isEmpty then none
      else some ((([(⟨"a_ER_Statistics", "a", "ER"⟩ : FolderRec),
            ⟨"a_ER_Statistics", "a", "ER"⟩]).filter
          (fun f => decide (f.cell_id = "a"))).map FolderRec.organelle)) ∧
    dictLookup [("a", ["ER", "ER"])] "a" = some ["ER", "ER"] := by
  have h : find_cell_folders ["a_ER_Statistics", "a_ER_Statistics"] =
      .ok (⟨[⟨"a_ER_Statistics", "a", "ER"⟩, ⟨"a_ER_Statistics", "a", "ER"⟩], ["a"], ["ER"],
            [(("a", "ER"), ⟨"a_ER_Statistics", "a", "ER"⟩)], [("a", ["ER", "ER"])]⟩,
           []) := rfl
  have h2 := C10_duplicate_key_semantics _ _ _ h
  exact ⟨h2.1 ("a", "ER"), h2.2.2 "a", rfl⟩

/-- Counterexample to claim C1: a file loading to the single value `1` has
one valid measurement, but the stored count is `0` — the source computes
`(distances <= 0).sum()`, not the series length. -/
theorem C1_counterexample :
    analyze_cell_files [("ER", "LD", [some (PVal.fin 1)])] =
      [("ER-to-LD", ⟨1, 0⟩)] ∧
    load_distance_file [some (PVal.fin 1)] = .ok ⟨[1], []⟩ ∧
    (0 : ℕ) ≠ ([(1 : ℚ)]).length := by
  have hl : load_distance_file [some (PVal.fin 1)] = .ok ⟨[1], []⟩ := rfl
  have hm : seriesMean [(1 : ℚ)] = some 1 := by
    simp [seriesMean]
  refine ⟨?_, hl, by decide⟩
  simp [analyze_cell_files, hl, hm, countLe0, dictInsert]

/-- Claim C1 as amended: for every stored relationship cell, the count
equals the number of loaded values that are ≤ 0 (and the mean is the series
mean) of the successfully loaded file it came from — not the series
length. -/
theorem C1_stored_count_counts_nonpositive :
    ∀ (files : List (String × String × MCol)) (label : String) (st : CellStats),
      (label, st) ∈ analyze_cell_files files →
      ∃ src tgt col r, (src, tgt, col) ∈ files ∧ load_distance_file col = .ok r ∧
        label = src ++ "-to-" ++ tgt ∧ seriesMean r.values = some st.mean ∧
        st.count = countLe0 r.values := by
  intro files label st h
  rcases analyze_cell_files_mem_aux files [] label st h with hacc | hex
  · cases hacc
  · exact hex

/-- Witness for C1 at a single negative-valued file. -/
theorem C1_witness :
    ∃ src tgt col r,
      (src, tgt, col) ∈ [("ER", "LD", [some (PVal.fin (-1))])] ∧
      load_distance_file col = .ok r ∧
      "ER-to-LD" = src ++ "-to-" ++ tgt ∧
      seriesMean r.values = some ((⟨-1, 1⟩ : CellStats).mean) ∧
      (⟨-1, 1⟩ : CellStats).count = countLe0 r.values := by
  have hl : load_distance_file [some (PVal.fin (-1))] = .ok ⟨[-1], []⟩ := rfl
  have hm : seriesMean [(-1 : ℚ)] = some (-1) := by
    simp [seriesMean]
  have hmem : ("ER-to-LD", (⟨-1, 1⟩ : CellStats)) ∈
      analyze_cell_files [("ER", "LD", [some (PVal.fin (-1))])] := by
    have : analyze_cell_files [("ER", "LD", [some (PVal.fin (-1))])] =
        [("ER-to-LD", ⟨-1, 1⟩)] := by
      simp [analyze_cell_files, hl, hm, countLe0, dictInsert]
    rw [this]
    exact List.mem_singleton.mpr rfl
  exact C1_stored_count_counts_nonpositive [("ER", "LD", [some (PVal.fin (-1))])]
    "ER-to-LD" ⟨-1, 1⟩ hmem

theorem map_fst_map_pair {A B : Type} (l : List A) (f : A → B) :
    ((l.map (fun i => (i, f i))).map Prod.fst) = l := by
  induction l with
  | nil => rfl
  | cons a rest ih => simp only [List.map_cons, ih]

theorem build_summary_tables_ok_inv (results : Results) (t : SummaryTables)
    (h : build_summary_tables results = .ok t) :
    t.interactions = sortedDedup (results.foldr (fun p acc => p.2.map Prod.fst ++ acc) []) ∧
    t.cells = sort_cell_ids (results.map Prod.fst) ∧
    t.rows = t.interactions.map
      (fun i => (i, t.cells.map (fun c => (c, summaryCellFor results i c)))) ∧
    t.missing_count = (t.rows.map
      (fun r => (r.2.filter (fun p => decide (p.2.marker = "Missing"))).length)).sum := by
  simp only [build_summary_tables] at h
  split at h
  · cases h
  · cases h
    exact ⟨rfl, rfl, rfl, rfl⟩

theorem interactions_nodup (results : Results) (t : SummaryTables)
    (h : build_summary_tables results = .ok t) : t.interactions.Nodup := by
  rw [(build_summary_tables_ok_inv results t h).1]
  exact sortedDedup_nodup _

theorem cells_nodup (results : Results) (t : SummaryTables)
    (hnd : (results.map Prod.fst).Nodup)
    (h : build_summary_tables results = .ok t) : t.cells.Nodup := by
  rw [(build_summary_tables_ok_inv results t h).2.1]
  exact ((sort_cell_ids_perm _).nodup_iff).mpr hnd

theorem tableCell_build (results : Results) (t : SummaryTables)
    (hnd : (results.map Prod.fst).Nodup)
    (h : build_summary_tables results = .ok t) :
    ∀ i ∈ t.interactions, ∀ c ∈ t.cells,
      tableCell t i c = some (summaryCellFor results i c) := by
  obtain ⟨_, _, h3, _⟩ := build_summary_tables_ok_inv results t h
  intro i hi c hc
  unfold tableCell
  rw [h3, dictLookup_map_self
    (fun i => t.cells.map (fun c => (c, summaryCellFor results i c)))
    t.interactions (interactions_nodup results t h) i hi]
  simp only [Option.some_bind]
  rw [dictLookup_map_self (fun c => summaryCellFor results i c)
    t.cells (cells_nodup results t hnd h) c hc]

theorem summaryCellFor_present (results : Results) (i c : String) (st : CellStats)
    (h : observedStats results c i = some st) :
    summaryCellFor results i c = ⟨some st.mean, st.count, "Present"⟩ := by
  simp [summaryCellFor, h]

theorem summaryCellFor_missing (results : Results) (i c : String)
    (h : observedStats results c i = none) :
    summaryCellFor results i c = ⟨none, 0, "Missing"⟩ := by
  simp [summaryCellFor, h]

theorem summaryCellFor_marker_iff (results : Results) (i c : String) :
    ((summaryCellFor results i c).marker = "Missing" ↔
      observedStats results c i = none) := by
  cases h : observedStats results c i with
  | none =>
    rw [summaryCellFor_missing results i c h]
    simp [h]
  | some st =>
    rw [summaryCellFor_present results i c st h]
    constructor
    · intro hm
      have hm' : ("Present" : String) = "Missing" := hm
      exact absurd hm' (by decide)
    · intro hm
      exact absurd hm (Option.some_ne_none st)

theorem dictLookup_append {K V : Type} [DecidableEq K] (l1 l2 : List (K × V)) (k : K) :
    dictLookup (l1 ++ l2) k = (dictLookup l1 k).or (dictLookup l2 k) := by
  simp only [dictLookup, List.find?_append]
  cases l1.find? (fun p => decide (p.1 = k)) <;> rfl

theorem dictLookup_isSome_of_mem_keys {K V : Type} [DecidableEq K]
    {l : List (K × V)} {k : K} (h : k ∈ l.map Prod.fst) :
    (dictLookup l k).isSome = true := by
  rcases List.mem_map.mp h with ⟨p, hp, hpk⟩
  simp only [dictLookup, Option.isSome_map']
  apply List.find?_isSome.mpr
  exact ⟨p, hp, decide_eq_true hpk⟩

theorem mem_keys_of_dictLookup_eq_some {K V : Type} [DecidableEq K]
    {l : List (K × V)} {k : K} {v : V} (h : dictLookup l k = some v) :
    k ∈ l.map Prod.fst := by
  simp only [dictLookup] at h
  cases hf : l.find? (fun p => decide (p.1 = k)) with
  | none => rw [hf] at h; cases h
  | some p =>
    have hmem := List.mem_of_find?_eq_some hf
    have hpred := List.find?_some hf
    simp only [decide_eq_true_eq] at hpred
    exact List.mem_map.mpr ⟨p, hmem, hpred⟩

theorem mem_keys_dictInsert {K V : Type} [DecidableEq K]
    {l : List (K × V)} {k x : K} {v : V}
    (h : x ∈ (dictInsert l k v).map Prod.fst) : x ∈ l.map Prod.fst ∨ x = k := by
  rcases List.mem_map.mp h with ⟨p, hp, hpk⟩
  rcases mem_dictInsert hp with heq | hin
  · right
    rw [← hpk, heq]
  · left
    exact List.mem_map.mpr ⟨p, hin, hpk⟩

theorem dictInsert_keys_nodup {K V : Type} [DecidableEq K]
    (l : List (K × V)) (k : K) (v : V) (h : (l.map Prod.fst).Nodup) :
    ((dictInsert l k v).map Prod.fst).Nodup := by
  induction l with
  | nil => simp [dictInsert]
  | cons p rest ih =>
    by_cases hp : p.1 = k
    · rw [dictInsert, if_pos hp]
      simp only [List.map_cons] at h ⊢
      rw [List.nodup_cons] at h ⊢
      exact ⟨hp ▸ h.1, h.2⟩
    · rw [dictInsert, if_neg hp]
      simp only [List.map_cons] at h ⊢
      rw [List.nodup_cons] at h ⊢
      refine ⟨?_, ih h.2⟩
      intro hmem
      rcases mem_keys_dictInsert hmem with hin | heq
      · exact h.1 hin
      · exact hp heq

theorem buildDict_keys_nodup_aux {K V : Type} [DecidableEq K] (l : List (K × V)) :
    ∀ acc : List (K × V), (acc.map Prod.fst).Nodup →
    (((l.foldl (fun a p => dictInsert a p.1 p.2) acc)).map Prod.fst).Nodup := by
  induction l with
  | nil => intro acc h; exact h
  | cons p rest ih =>
    intro acc h
    rw [List.foldl_cons]
    exact ih _ (dictInsert_keys_nodup acc p.1 p.2 h)

theorem buildDict_keys_nodup {K V : Type} [DecidableEq K] (l : List (K × V)) :
    ((buildDict l).map Prod.fst).Nodup :=
  buildDict_keys_nodup_aux l [] (by simp)

theorem assoc_unique_value {K V : Type} [DecidableEq K] :
    ∀ (l : List (K × V)), (l.map Prod.fst).Nodup → ∀ (k : K) (v : V), (k, v) ∈ l →
    ∀ p ∈ l, p.1 = k → p.2 = v := by
  intro l
  induction l with
  | nil => intro _ k v hmem; cases hmem
  | cons q rest ih =>
    intro hnd k v hmem p hp hpk
    simp only [List.map_cons, List.nodup_cons] at hnd
    rcases List.mem_cons.mp hmem with hqv | hqv
    · rcases List.mem_cons.mp hp with rfl | hpin
      · rw [← hqv]
      · exfalso
        apply hnd.1
        have hq1 : q.1 = k := by rw [← hqv]
        rw [hq1, ← hpk]
        exact List.mem_map.mpr ⟨p, hpin, rfl⟩
    · rcases List.mem_cons.mp hp with rfl | hpin
      · exfalso
        apply hnd.1
        rw [hpk]
        exact List.mem_map.mpr ⟨(k, v), hqv, rfl⟩
      · exact ih hnd.2 k v hqv p hpin hpk

theorem dictLookup_buildDict_unique {K V : Type} [DecidableEq K]
    (l : List (K × V)) (hnd : (l.map Prod.fst).Nodup) (k : K) (v : V)
    (hmem : (k, v) ∈ l) : dictLookup (buildDict l) k = some v := by
  rw [dictLookup_buildDict]
  have huniq : ∀ p ∈ l, p.1 = k → p.2 = v := assoc_unique_value l hnd k v hmem
  cases hf : l.reverse.find? (fun p => decide (p.1 = k)) with
  | none =>
    exfalso
    have := List.find?_eq_none.mp hf (k, v) (List.mem_reverse.mpr hmem)
    simp at this
  | some p =>
    have hmemp := List.mem_reverse.mp (List.mem_of_find?_eq_some hf)
    have hpred := List.find?_some hf
    simp only [decide_eq_true_eq] at hpred
    simp [huniq p hmemp hpred]

theorem resultsDict_eq_aux (fs : FileSys) (organelle : String) (L : List String) :
    ∀ acc : List (String × MetricsDict),
    L.foldl (fun a folder =>
      if skipShadow fs organelle folder then a
      else dictInsert a (cellIdOf organelle folder) (cellMetrics fs organelle folder)) acc =
    ((L.filter (fun g => ! skipShadow fs organelle g)).map
        (fun g => (cellIdOf organelle g, cellMetrics fs organelle g))).foldl
      (fun a p => dictInsert a p.1 p.2) acc := by
  induction L with
  | nil => intro acc; rfl
  | cons g rest ih =>
    intro acc
    cases hskip : skipShadow fs organelle g with
    | true =>
      simp only [List.foldl_cons, List.filter_cons, hskip, Bool.not_true, if_true,
        Bool.false_eq_true, if_false]
      exact ih acc
    | false =>
      simp only [List.foldl_cons, List.filter_cons, hskip, Bool.not_false, if_true,
        Bool.false_eq_true, if_false, List.map_cons]
      exact ih _

theorem resultsDict_eq (organelle : String) (folders : List String) (fs : FileSys) :
    resultsDict organelle folders fs =
      buildDict (((organelleFolders organelle folders).filter
          (fun g => ! skipShadow fs organelle g)).map
        (fun g => (cellIdOf organelle g, cellMetrics fs organelle g))) := by
  rw [resultsDict, buildDict, resultsDict_eq_aux]

theorem volumeMetrics_keys (fs : FileSys) (folder cell_id organelle : String) :
    (volumeMetrics fs folder cell_id organelle).map Prod.fst =
      ["Mean_Volume", "Count_Volume", "Total_Volume", "Max_Volume"] := by
  cases hfs : fs (volPath folder cell_id organelle) with
  | none => simp [volumeMetrics, hfs, volumeSentinels]
  | some col =>
    simp only [volumeMetrics, hfs]
    cases hl : load_metric_file col .Volume with
    | ok r => simp [hl]
    | error e => simp [hl, volumeSentinels]

theorem sphericityMetrics_keys (fs : FileSys) (folder cell_id organelle : String) :
    (sphericityMetrics fs folder cell_id organelle).map Prod.fst =
      ["Mean_Sphericity", "Count_Sphericity"] := by
  cases hfs : fs (spherPath folder cell_id organelle) with
  | none => simp [sphericityMetrics, hfs, sphericitySentinels]
  | some col =>
    simp only [sphericityMetrics, hfs]
    cases hl : load_metric_file col .Sphericity with
    | ok r => simp [hl]
    | error e => simp [hl, sphericitySentinels]

theorem cellMetrics_keys (fs : FileSys) (organelle folder : String) :
    (cellMetrics fs organelle folder).map Prod.fst =
      ["Mean_Volume", "Count_Volume", "Total_Volume", "Max_Volume",
       "Mean_Sphericity", "Count_Sphericity"] := by
  unfold cellMetrics
  rw [List.map_append, volumeMetrics_keys, sphericityMetrics_keys]
  rfl

theorem mem_resultsDict_values (organelle : String) (folders : List String) (fs : FileSys)
    (c : String) (md : MetricsDict)
    (h : dictLookup (resultsDict organelle folders fs) c = some md) :
    ∃ folder ∈ organelleFolders organelle folders,
      skipShadow fs organelle folder = false ∧
      c = cellIdOf organelle folder ∧ md = cellMetrics fs organelle folder := by
  rw [resultsDict_eq, dictLookup_buildDict] at h
  cases hf : (((organelleFolders organelle folders).filter
      (fun g => ! skipShadow fs organelle g)).map
      (fun g => (cellIdOf organelle g, cellMetrics fs organelle g))).reverse.find?
      (fun p => decide (p.1 = c)) with
  | none => rw [hf] at h; cases h
  | some p =>
    rw [hf] at h
    have hmem := List.mem_reverse.mp (List.mem_of_find?_eq_some hf)
    have hpred := List.find?_some hf
    simp only [decide_eq_true_eq] at hpred
    rcases List.mem_map.mp hmem with ⟨g, hg, hpg⟩
    have hgf := List.mem_filter.mp hg
    refine ⟨g, hgf.1, by simpa using hgf.2, ?_, ?_⟩
    · rw [← hpred, ← hpg]
    · have : md = p.2 := by cases h; rfl
      rw [this, ← hpg]

/-- Claim C4: after assembly, the relationship tables are exactly the cross
product of the interaction union and the discovered cells — present cells
carry the computed statistics, absent cells the explicit sentinels — and
the metric matrix carries all six fixed rows over all discovered cells with
every entry populated. -/
theorem C4_dense_matrices :
    (∀ (results : Results) (t : SummaryTables),
        (results.map Prod.fst).Nodup →
        build_summary_tables results = .ok t →
        t.rows.map Prod.fst = t.interactions ∧
        (∀ row ∈ t.rows, row.2.map Prod.fst = t.cells) ∧
        (∀ i ∈ t.interactions, ∀ c ∈ t.cells, ∀ st : CellStats,
          observedStats results c i = some st →
            tableCell t i c = some ⟨some st.mean, st.count, "Present"⟩) ∧
        (∀ i ∈ t.interactions, ∀ c ∈ t.cells,
          observedStats results c i = none →
            tableCell t i c = some ⟨none, 0, "Missing"⟩)) ∧
    (∀ (organelle : String) (folders : List String) (fs : FileSys),
        (analyze_organelle organelle folders fs = [] ∨
          (analyze_organelle organelle folders fs).map Prod.fst = ROW_ORDER) ∧
        (∀ row ∈ analyze_organelle organelle folders fs,
          row.2.map Prod.fst =
            sort_cell_ids ((resultsDict organelle folders fs).map Prod.fst)) ∧
        (∀ row ∈ analyze_organelle organelle folders fs, ∀ p ∈ row.2,
          p.2.isSome = true)) := by
  constructor
  · intro results t hnd h
    obtain ⟨_, _, h3, _⟩ := build_summary_tables_ok_inv results t h
    refine ⟨by rw [h3, map_fst_map_pair], ?_, ?_, ?_⟩
    · intro row hrow
      rw [h3] at hrow
      rcases List.mem_map.mp hrow with ⟨i, _, hrw⟩
      rw [← hrw]
      exact map_fst_map_pair t.cells _
    · intro i hi c hc st hst
      rw [tableCell_build results t hnd h i hi c hc, summaryCellFor_present results i c st hst]
    · intro i hi c hc hst
      rw [tableCell_build results t hnd h i hi c hc, summaryCellFor_missing results i c hst]
  · intro organelle folders fs
    by_cases he : (organelleFolders organelle folders).isEmpty
    · have hout : analyze_organelle organelle folders fs = [] := by
        simp only [analyze_organelle]
        rw [if_pos he]
      rw [hout]
      refine ⟨Or.inl rfl, ?_, ?_⟩
      · intro row hrow
        cases hrow
      · intro row hrow
        cases hrow
    · by_cases hr : (resultsDict organelle folders fs).isEmpty
      · have hout : analyze_organelle organelle folders fs = [] := by
          simp only [analyze_organelle]
          rw [if_neg he, if_pos hr]
        rw [hout]
        refine ⟨Or.inl rfl, ?_, ?_⟩
        · intro row hrow
          cases hrow
        · intro row hrow
          cases hrow
      · have hout : analyze_organelle organelle folders fs =
            ROW_ORDER.map (fun m => (m,
              (sort_cell_ids ((resultsDict organelle folders fs).map Prod.fst)).map
                (fun c => (c, (dictLookup (resultsDict organelle folders fs) c).bind
                  (fun md => dictLookup md m))))) := by
          simp only [analyze_organelle]
          rw [if_neg he, if_neg hr]
        refine ⟨Or.inr (by rw [hout, map_fst_map_pair]), ?_, ?_⟩
        · intro row hrow
          rw [hout] at hrow
          rcases List.mem_map.mp hrow with ⟨m, _, hrw⟩
          rw [← hrw]
          exact map_fst_map_pair _ _
        · intro row hrow p hp
          rw [hout] at hrow
          rcases List.mem_map.mp hrow with ⟨m, hm, hrw⟩
          rw [← hrw] at hp
          rcases List.mem_map.mp hp with ⟨c, hc, hpc⟩
          rw [← hpc]
          simp only
          have hck : c ∈ (resultsDict organelle folders fs).map Prod.fst :=
            (mem_sort_cell_ids _ c).mp hc
          have hsome := dictLookup_isSome_of_mem_keys hck
          rcases Option.isSome_iff_exists.mp hsome with ⟨md, hmd⟩
          rw [hmd]
          simp only [Option.some_bind]
          rcases mem_resultsDict_values organelle folders fs c md hmd with
            ⟨g, _, _, _, hmdg⟩
          rw [hmdg]
          apply dictLookup_isSome_of_mem_keys
          rw [cellMetrics_keys]
          fin_cases hm <;> decide

/-- Claim C5: the completeness matrix marks a cell `Missing` exactly when
the relationship was not observed for that cell in the per-cell results,
the missing counter counts exactly those cells, and the reported
percentage is `missing / (rows × columns) × 100`. -/
theorem C5_completeness_matrix :
    ∀ (results : Results) (t : SummaryTables),
      (results.map Prod.fst).Nodup →
      build_summary_tables results = .ok t →
      (∀ i ∈ t.interactions, ∀ c ∈ t.cells,
        ((tableCell t i c).map SummaryCell.marker = some "Missing" ↔
          observedStats results c i = none)) ∧
      t.missing_count = (t.interactions.map (fun i =>
          (t.cells.filter (fun c => decide (observedStats results c i = none))).length)).sum ∧
      missing_percentage t =
        ((t.missing_count : ℚ) / ((t.interactions.length * t.cells.length : ℕ) : ℚ)) * 100 := by
  intro results t hnd h
  obtain ⟨_, _, h3, h4⟩ := build_summary_tables_ok_inv results t h
  refine ⟨?_, ?_, rfl⟩
  · intro i hi c hc
    rw [tableCell_build results t hnd h i hi c hc]
    simp only [Option.map_some', Option.some_inj]
    exact summaryCellFor_marker_iff results i c
  · rw [h4, h3, List.map_map]
    congr 1
    apply List.map_congr_left
    intro i hi
    show ((t.cells.map (fun c => (c, summaryCellFor results i c))).filter
        (fun p => decide (p.2.marker = "Missing"))).length = _
    rw [List.filter_map, List.length_map]
    congr 1
    apply List.filter_congr
    intro c hc
    show decide ((summaryCellFor results i c).marker = "Missing") =
      decide (observedStats results c i = none)
    exact decide_eq_decide.mpr (summaryCellFor_marker_iff results i c)

theorem map_fst_map_kv {A B C : Type} (l : List A) (k : A → B) (v : A → C) :
    ((l.map (fun g => (k g, v g))).map Prod.fst) = l.map k := by
  induction l with
  | nil => rfl
  | cons a rest ih => simp only [List.map_cons, ih]

theorem dictLookup_eq_none_of_not_mem_keys {K V : Type} [DecidableEq K]
    {l : List (K × V)} {k : K} (h : k ∉ l.map Prod.fst) : dictLookup l k = none := by
  cases hd : dictLookup l k with
  | none => rfl
  | some v => exact absurd (mem_keys_of_dictLookup_eq_some hd) h

/-- Claim C8: a processed folder whose volume or sphericity file is missing
or fails to load still contributes its cell as a column of the metric
matrix, with the sentinel values (`NaN` means/sums/max, `0` counts) in the
affected rows; the entity is never dropped. -/
theorem C8_missing_data_keeps_entity :
    ∀ (organelle : String) (folders : List String) (fs : FileSys) (folder : String),
      folder ∈ organelleFolders organelle folders →
      skipShadow fs organelle folder = false →
      (((organelleFolders organelle folders).filter
          (fun g => ! skipShadow fs organelle g)).map (cellIdOf organelle)).Nodup →
      analyze_organelle organelle folders fs ≠ [] ∧
      (∀ row ∈ analyze_organelle organelle folders fs,
        cellIdOf organelle folder ∈ row.2.map Prod.fst) ∧
      ((fs (volPath folder (cellIdOf organelle folder) organelle) = none ∨
        (∃ col, fs (volPath folder (cellIdOf organelle folder) organelle) = some col ∧
          exceptIsOk (load_metric_file col .Volume) = false)) →
        matrixEntry (analyze_organelle organelle folders fs) "Mean_Volume"
            (cellIdOf organelle folder) = some (some .nan) ∧
        matrixEntry (analyze_organelle organelle folders fs) "Count_Volume"
            (cellIdOf organelle folder) = some (some (.q 0)) ∧
        matrixEntry (analyze_organelle organelle folders fs) "Total_Volume"
            (cellIdOf organelle folder) = some (some .nan) ∧
        matrixEntry (analyze_organelle organelle folders fs) "Max_Volume"
            (cellIdOf organelle folder) = some (some .nan)) ∧
      ((fs (spherPath folder (cellIdOf organelle folder) organelle) = none ∨
        (∃ col, fs (spherPath folder (cellIdOf organelle folder) organelle) = some col ∧
          exceptIsOk (load_metric_file col .Sphericity) = false)) →
        matrixEntry (analyze_organelle organelle folders fs) "Mean_Sphericity"
            (cellIdOf organelle folder) = some (some .nan) ∧
        matrixEntry (analyze_organelle organelle folders fs) "Count_Sphericity"
            (cellIdOf organelle folder) = some (some (.q 0))) := by
  intro organelle folders fs folder hmem hskip hnd
  have hkeep : folder ∈ (organelleFolders organelle folders).filter
      (fun g => ! skipShadow fs organelle g) :=
    List.mem_filter.mpr ⟨hmem, by simp [hskip]⟩
  have hpair : (cellIdOf organelle folder, cellMetrics fs organelle folder) ∈
      ((organelleFolders organelle folders).filter
          (fun g => ! skipShadow fs organelle g)).map
        (fun g => (cellIdOf organelle g, cellMetrics fs organelle g)) :=
    List.mem_map.mpr ⟨folder, hkeep, rfl⟩
  have hndk : ((((organelleFolders organelle folders).filter
      (fun g => ! skipShadow fs organelle g)).map
        (fun g => (cellIdOf organelle g, cellMetrics fs organelle g))).map Prod.fst).Nodup := by
    rw [map_fst_map_kv]
    exact hnd
  have hlook : dictLookup (resultsDict organelle folders fs) (cellIdOf organelle folder) =
      some (cellMetrics fs organelle folder) := by
    rw [resultsDict_eq]
    exact dictLookup_buildDict_unique _ hndk _ _ hpair
  have hofne : ¬ (organelleFolders organelle folders).isEmpty = true := by
    intro hemp
    rw [List.isEmpty_iff] at hemp
    rw [hemp] at hmem
    cases hmem
  have hrdne : ¬ (resultsDict organelle folders fs).isEmpty = true := by
    intro hemp
    rw [List.isEmpty_iff] at hemp
    rw [hemp] at hlook
    cases hlook
  have hout : analyze_organelle organelle folders fs =
      ROW_ORDER.map (fun m => (m,
        (sort_cell_ids ((resultsDict organelle folders fs).map Prod.fst)).map
          (fun c => (c, (dictLookup (resultsDict organelle folders fs) c).bind
            (fun md => dictLookup md m))))) := by
    simp only [analyze_organelle]
    rw [if_neg hofne, if_neg hrdne]
  have hckey : cellIdOf organelle folder ∈ (resultsDict organelle folders fs).map Prod.fst :=
    mem_keys_of_dictLookup_eq_some hlook
  have hcells : cellIdOf organelle folder ∈
      sort_cell_ids ((resultsDict organelle folders fs).map Prod.fst) :=
    (mem_sort_cell_ids _ _).mpr hckey
  have hcellsnd : (sort_cell_ids ((resultsDict organelle folders fs).map Prod.fst)).Nodup := by
    apply ((sort_cell_ids_perm _).nodup_iff).mpr
    have := buildDict_keys_nodup (((organelleFolders organelle folders).filter
        (fun g => ! skipShadow fs organelle g)).map
      (fun g => (cellIdOf organelle g, cellMetrics fs organelle g)))
    rw [← resultsDict_eq] at this
    exact this
  have hentry : ∀ m ∈ ROW_ORDER,
      matrixEntry (analyze_organelle organelle folders fs) m (cellIdOf organelle folder) =
        some (dictLookup (cellMetrics fs organelle folder) m) := by
    intro m hm
    rw [hout]
    unfold matrixEntry
    rw [dictLookup_map_self (fun m =>
        (sort_cell_ids ((resultsDict organelle folders fs).map Prod.fst)).map
          (fun c => (c, (dictLookup (resultsDict organelle folders fs) c).bind
            (fun md => dictLookup md m))))
      ROW_ORDER (by decide) m hm]
    simp only [Option.some_bind]
    rw [dictLookup_map_self (fun c => (dictLookup (resultsDict organelle folders fs) c).bind
        (fun md => dictLookup md m))
      (sort_cell_ids ((resultsDict organelle folders fs).map Prod.fst))
      hcellsnd (cellIdOf organelle folder) hcells]
    rw [hlook]
    rfl
  refine ⟨?_, ?_, ?_, ?_⟩
  · rw [hout]
    simp [ROW_ORDER]
  · intro row hrow
    rw [hout] at hrow
    rcases List.mem_map.mp hrow with ⟨m, _, hrw⟩
    rw [← hrw]
    simp only
    rw [map_fst_map_pair]
    exact hcells
  · intro hvol
    have hvs : volumeMetrics fs folder (cellIdOf organelle folder) organelle =
        volumeSentinels := by
      rcases hvol with hv | ⟨col, hv, hfail⟩
      · simp only [volumeMetrics, hv]
      · simp only [volumeMetrics, hv]
        cases hl : load_metric_file col .Volume with
        | ok r => rw [hl] at hfail; cases hfail
        | error e => simp only [hl]
    have hcm : cellMetrics fs organelle folder =
        volumeSentinels ++ sphericityMetrics fs folder (cellIdOf organelle folder) organelle := by
      simp only [cellMetrics]
      rw [hvs]
    refine ⟨?_, ?_, ?_, ?_⟩ <;>
      rw [hentry _ (by decide), hcm, dictLookup_append] <;> rfl
  · intro hsph
    have hss : sphericityMetrics fs folder (cellIdOf organelle folder) organelle =
        sphericitySentinels := by
      rcases hsph with hv | ⟨col, hv, hfail⟩
      · simp only [sphericityMetrics, hv]
      · simp only [sphericityMetrics, hv]
        cases hl : load_metric_file col .Sphericity with
        | ok r => rw [hl] at hfail; cases hfail
        | error e => simp only [hl]
    have hcm : cellMetrics fs organelle folder =
        volumeMetrics fs folder (cellIdOf organelle folder) organelle ++
          sphericitySentinels := by
      simp only [cellMetrics]
      rw [hss]
    have hvnone : ∀ m ∈ (["Mean_Sphericity", "Count_Sphericity"] : List String),
        dictLookup (volumeMetrics fs folder (cellIdOf organelle folder) organelle) m = none := by
      intro m hm
      apply dictLookup_eq_none_of_not_mem_keys
      rw [volumeMetrics_keys]
      fin_cases hm <;> decide
    constructor
    · rw [hentry _ (by decide), hcm, dictLookup_append, hvnone _ (by decide)]
      rfl
    · rw [hentry _ (by decide), hcm, dictLookup_append, hvnone _ (by decide)]
      rfl

/-- Witness for C4: the fixture tables are dense, and the no-files metric
matrix still has its six rows with populated entries. -/
theorem C4_witness :
    sampleTables.rows.map Prod.fst = sampleTables.interactions ∧
    tableCell sampleTables "ER-to-LD" "c1" = some ⟨some 5, 2, "Present"⟩ ∧
    tableCell sampleTables "ER-to-LD" "c2" = some ⟨none, 0, "Missing"⟩ ∧
    (analyze_organelle "ER" ["c1_ER_Statistics"] (fun _ => none) = [] ∨
      (analyze_organelle "ER" ["c1_ER_Statistics"] (fun _ => none)).map Prod.fst = ROW_ORDER) ∧
    ((("c1", some MVal.nan) : String × Option MVal)).2.isSome = true := by
  have h : build_summary_tables sampleResults = .ok sampleTables := rfl
  have h1 := C4_dense_matrices.1 sampleResults sampleTables (by decide) h
  have h2 := C4_dense_matrices.2 "ER" ["c1_ER_Statistics"] (fun _ => none)
  refine ⟨h1.1, ?_, ?_, h2.1, ?_⟩
  · exact h1.2.2.1 "ER-to-LD" (by decide) "c1" (by decide) ⟨5, 2⟩ (by decide)
  · exact h1.2.2.2 "ER-to-LD" (by decide) "c2" (by decide) (by decide)
  · exact h2.2.2 ("Mean_Sphericity", [("c1", some MVal.nan)]) (by decide)
      ("c1", some MVal.nan) (by decide)

/-- Witness for C5 on the fixture tables. -/
theorem C5_witness :
    ((tableCell sampleTables "ER-to-LD" "c2").map SummaryCell.marker = some "Missing" ↔
      observedStats sampleResults "c2" "ER-to-LD" = none) ∧
    sampleTables.missing_count = (sampleTables.interactions.map (fun i =>
        (sampleTables.cells.filter
          (fun c => decide (observedStats sampleResults c i = none))).length)).sum ∧
    missing_percentage sampleTables = ((sampleTables.missing_count : ℚ) /
        ((sampleTables.interactions.length * sampleTables.cells.length : ℕ) : ℚ)) * 100 := by
  have h : build_summary_tables sampleResults = .ok sampleTables := rfl
  have hp := C5_completeness_matrix sampleResults sampleTables (by decide) h
  exact ⟨hp.1 "ER-to-LD" (by decide) "c2" (by decide), hp.2.1, hp.2.2⟩

/-- Witness for C8: with no files on disk at all, the lone cell still
appears as a column carrying the sentinels. -/
theorem C8_witness :
    analyze_organelle "ER" ["c1_ER_Statistics"] (fun _ => none) ≠ [] ∧
    matrixEntry (analyze_organelle "ER" ["c1_ER_Statistics"] (fun _ => none)) "Mean_Volume"
      (cellIdOf "ER" "c1_ER_Statistics") = some (some .nan) ∧
    matrixEntry (analyze_organelle "ER" ["c1_ER_Statistics"] (fun _ => none)) "Count_Volume"
      (cellIdOf "ER" "c1_ER_Statistics") = some (some (.q 0)) ∧
    matrixEntry (analyze_organelle "ER" ["c1_ER_Statistics"] (fun _ => none)) "Mean_Sphericity"
      (cellIdOf "ER" "c1_ER_Statistics") = some (some .nan) := by
  have h := C8_missing_data_keeps_entity "ER" ["c1_ER_Statistics"] (fun _ => none)
    "c1_ER_Statistics" (by decide) (by decide) (by decide)
  refine ⟨h.1, ?_, ?_, ?_⟩
  · exact (h.2.2.1 (Or.inl rfl)).1
  · exact (h.2.2.1 (Or.inl rfl)).2.1
  · exact (h.2.2.2 (Or.inl rfl)).1

end Orgaplex

